import Mathlib

/-!
# CSE7761 energy-meter driver

A shallow embedding of `components/cse7761/cse7761.cpp` and theorems about its
framing codec, register transport, initialisation state machine, calibration
and measurement acquisition.

Conventions of the embedding

* C unsigned integers are natural numbers; every place where the C code
  truncates (a store into a `uint8_t`, `uint16_t` or `uint32_t`) carries an
  explicit `%`.
* C arrays are lists, read with `List.getD _ _ 0` and written with `List.set`.
* The UART is a pair of a transmit log (the arrays handed to `write_array`,
  oldest first) and a counter of receive windows.  What the line answers is a
  parameter `T : Transport`: `T n reg` is the finite sequence of results of the
  successive `read()` calls made inside the 3 ms window of the `n`-th receive
  window, opened after a request for register `reg`; `-1` means no byte was
  available at that poll.  The window ends when the sequence is exhausted
  (`TimeReached(timeout)`).
* `millis()` is read once per `loop()` call and passed in as `now`; clock values
  are taken small enough that `last_init + 1000` does not overflow a `long`.
-/

namespace CSE7761

/-! ## Constants (lines 18-90) -/

abbrev CSE7761_UREF : Nat := 42563
abbrev CSE7761_IREF : Nat := 52241
abbrev CSE7761_PREF : Nat := 44513

abbrev CSE7761_REG_SYSCON : Nat := 0x00
abbrev CSE7761_REG_EMUCON : Nat := 0x01
abbrev CSE7761_REG_EMUCON2 : Nat := 0x13
abbrev CSE7761_REG_PULSE1SEL : Nat := 0x1D
abbrev CSE7761_REG_RMSIA : Nat := 0x24
abbrev CSE7761_REG_RMSIB : Nat := 0x25
abbrev CSE7761_REG_RMSU : Nat := 0x26
abbrev CSE7761_REG_POWERPA : Nat := 0x2C
abbrev CSE7761_REG_POWERPB : Nat := 0x2D
abbrev CSE7761_REG_SYSSTATUS : Nat := 0x43
abbrev CSE7761_REG_COEFFCHKSUM : Nat := 0x6F
abbrev CSE7761_REG_RMSIAC : Nat := 0x70

abbrev CSE7761_SPECIAL_COMMAND : Nat := 0xEA
abbrev CSE7761_CMD_RESET : Nat := 0x96
abbrev CSE7761_CMD_CLOSE_WRITE : Nat := 0xDC
abbrev CSE7761_CMD_ENABLE_WRITE : Nat := 0xE5

/-- Indices of `enum CSE7761` into the coefficient array. -/
abbrev RmsIAC : Nat := 0
abbrev RmsIBC : Nat := 1
abbrev RmsUC : Nat := 2
abbrev PowerPAC : Nat := 3
abbrev PowerPBC : Nat := 4
abbrev PowerSC : Nat := 5
abbrev EnergyAC : Nat := 6
abbrev EnergyBC : Nat := 7

/-! ## Data model (lines 92-104) -/

/-- The global `CSE7761Data` struct with its initialisers. -/
structure CSE7761Data where
  frequency : Nat := 0
  voltage_rms : Nat := 0
  current_rms : List Nat := [0, 0]
  energy : List Nat := [0, 0]
  active_power : List Nat := [0, 0]
  coefficient : List Nat := [0, 0, 0, 0, 0, 0, 0, 0]
  energy_update : Nat := 0
  init : Nat := 4
  ready : Nat := 0
deriving DecidableEq

/-- The serial line as the driver sees it: `tx` logs every array handed to
`write_array`, oldest first; `polled` counts the receive windows opened. -/
structure Uart where
  tx : List (List Nat) := []
  polled : Nat := 0
deriving DecidableEq

/-- Behaviour of the line: `T n reg` lists the results of the `read()` calls of
the `n`-th receive window, opened after a read request for `reg`. -/
abbrev Transport := Nat → Nat → List Int

/-- Which of the five optional sensor pointers are non-null. -/
structure Sinks where
  voltage_sensor_ : Bool := true
  power_sensor_1_ : Bool := true
  current_sensor_1_ : Bool := true
  power_sensor_2_ : Bool := true
  current_sensor_2_ : Bool := true
deriving DecidableEq

/-- The five publish targets. -/
inductive Sink where
  | voltage
  | power1
  | current1
  | power2
  | current2
deriving DecidableEq

/-- One entry of the trace of the conversion part of `Cse7761GetData`.  With
`ref = some r` it is a `publish_state` call: the target, the integer converted
to `float` and the divisor `r` returned by `Cse7761Ref` (the floating-point
quotient itself is not computed).  With `ref = none` it is the call of
`Cse7761Ref` for that conversion dividing by zero: the program traps there,
whether or not the target's sensor pointer is set, and nothing after it runs. -/
structure Published where
  sink : Sink
  raw : Nat
  ref : Option Nat
deriving DecidableEq

/-- Everything a `CSE7761Sensor` owns or touches. -/
structure Sensor where
  data : CSE7761Data := {}
  last_init : Nat := 0
  uart : Uart := {}
  sinks : Sinks := {}
  published : List Published := []
deriving DecidableEq

/-- State at boot: `init = 4`, `ready = 0`, nothing sent, nothing published. -/
def Sensor.boot (sinks : Sinks) : Sensor := { sinks := sinks }

/-! ## Scale references (lines 122-133) -/

/-- `Cse7761Ref(unit)`; `none` marks an integer division by zero.  The C
expressions are evaluated in `int` (`unsigned` for the power case) and the
result is returned as `uint32_t`; a product that leaves the range of `int` is
taken to wrap, so the returned value is the exact value modulo 2^32. -/
def Cse7761Ref (coefficient : List Nat) (unit : Nat) : Option Nat :=
  if unit = RmsUC then
    if coefficient.getD RmsUC 0 = 0 then none
    else some ((0x400000 * 100 / coefficient.getD RmsUC 0) % 2 ^ 32)
  else if unit = RmsIAC then
    if coefficient.getD RmsIAC 0 = 0 then none
    else some (((0x800000 * 100 / coefficient.getD RmsIAC 0) * 10) % 2 ^ 32)
  else if unit = PowerPAC then
    if coefficient.getD PowerPAC 0 = 0 then none
    else some ((0x80000000 / coefficient.getD PowerPAC 0) % 2 ^ 32)
  else some 0

/-! ## Framing codec: `Cse7761Write` (lines 175-199) -/

/-- The bytes `buffer[0 .. len)` that `Cse7761Write(reg, data)` hands to
`write_array`. -/
def Cse7761WriteBuffer (reg data : Nat) : List Nat :=
  let buffer : List Nat := [0xA5, reg % 256]
  if data ≠ 0 then
    let buffer :=
      if data < 0xFF then buffer ++ [data &&& 0xFF]
      else buffer ++ [(data >>> 8) &&& 0xFF, data &&& 0xFF]
    let crc := buffer.foldl (fun crc b => (crc + b) % 256) 0
    buffer ++ [255 - crc]
  else buffer

/-- `write_array`: the array goes out on the line. -/
def write_array (buffer : List Nat) (u : Uart) : Uart :=
  { u with tx := u.tx ++ [buffer] }

/-- `Cse7761Write(reg, data)`. -/
def Cse7761Write (reg data : Nat) (u : Uart) : Uart :=
  write_array (Cse7761WriteBuffer reg data) u

/-! ## Register transport: `Cse7761ReadOnce` (lines 201-243) -/

/-- Why a read attempt returned `false`. -/
inductive RxError where
  | rxNone
  | rxOverflow
  | checksumMismatch
deriving DecidableEq

/-- Local variables `buffer` and `rcvd` of `Cse7761ReadOnce`. -/
structure RxState where
  buffer : List Nat
  rcvd : Nat
deriving DecidableEq

/-- Body of the receive loop for one `read()` result `value` (lines 214-217). -/
def rxPoll (value : Int) (st : RxState) : RxState :=
  if value > -1 ∧ st.rcvd < 8 - 1 then
    { buffer := st.buffer.set st.rcvd (value.toNat % 256), rcvd := st.rcvd + 1 }
  else st

/-- The receive loop (line 213): runs while poll results remain (the timeout
has not been reached) and `rcvd <= size`. -/
def rxLoop (size : Nat) : List Int → RxState → RxState
  | [], st => st
  | value :: polls, st =>
    if st.rcvd ≤ size then rxLoop size polls (rxPoll value st) else st

/-- Lines 209-218: the zeroed 8-byte buffer after the receive loop. -/
def receive (size : Nat) (polls : List Int) : RxState :=
  rxLoop size polls { buffer := List.replicate 8 0, rcvd := 0 }

/-- The `for` loop of lines 232-235 over `i < rcvd`, as `(result, crc)`. -/
def parseLoop (buffer : List Nat) (rcvd : Nat) (crc : Nat) : Nat × Nat :=
  (List.range rcvd).foldl
    (fun acc i =>
      (((acc.1 <<< 8) % 2 ^ 32) ||| buffer.getD i 0, (acc.2 + buffer.getD i 0) % 256))
    (0, crc)

/-- Response parsing step, lines 229-242: `rcvd` is the count before the
decrement. -/
def parseResponse (reg : Nat) (buffer : List Nat) (rcvd : Nat) : Except RxError Nat :=
  let rcvd := rcvd - 1
  let acc := parseLoop buffer rcvd ((0xA5 + reg) % 256)
  let crc := 255 - acc.2
  if crc ≠ buffer.getD rcvd 0 then Except.error RxError.checksumMismatch
  else Except.ok acc.1

/-- Lines 220-242: the two length checks, then the parsing step. -/
def checkAndParse (reg : Nat) (st : RxState) : Except RxError Nat :=
  if st.rcvd = 0 then Except.error RxError.rxNone
  else if st.rcvd > 5 then Except.error RxError.rxOverflow
  else parseResponse reg st.buffer st.rcvd

/-- Outcome of one attempt on the given poll results. -/
def readOnceOutcome (reg size : Nat) (polls : List Int) : Except RxError Nat :=
  checkAndParse reg (receive size polls)

/-- `Cse7761ReadOnce(reg, size, &value)`: returns the boolean result, the
content of `*value` afterwards, and the line.  The flush of stale input (lines
203-205) leaves no trace here: the poll results of a window are by definition
those seen after the request went out. -/
def Cse7761ReadOnce (T : Transport) (reg size value : Nat) (u : Uart) : Bool × Nat × Uart :=
  let u := Cse7761Write reg 0 u
  let polls := T u.polled reg
  let u := { u with polled := u.polled + 1 }
  match readOnceOutcome reg size polls with
  | Except.ok result => (true, result, u)
  | Except.error _ => (false, value, u)

/-! ## `Cse7761Read` and `Cse7761ReadFallback` (lines 245-263) -/

/-- The `while (!result && retry)` loop of `Cse7761Read`. -/
def readLoop (T : Transport) (reg size : Nat) : Nat → Bool → Nat → Uart → Nat × Uart
  | 0, _, value, u => (value, u)
  | retry + 1, result, value, u =>
    if result then (value, u)
    else
      let r := Cse7761ReadOnce T reg size value u
      readLoop T reg size retry r.1 r.2.1 r.2.2

/-- `Cse7761Read(reg, size)`. -/
def Cse7761Read (T : Transport) (reg size : Nat) (u : Uart) : Nat × Uart :=
  readLoop T reg size 3 false 0 u

/-- `Cse7761ReadFallback(reg, prev, size)`. -/
def Cse7761ReadFallback (T : Transport) (reg prev size : Nat) (u : Uart) : Nat × Uart :=
  let r := Cse7761Read T reg size u
  if r.1 = 0 then (prev, r.2) else (r.1, r.2)

/-! ## `Cse7761ChipInit` (lines 265-439) -/

/-- Loop variables of the coefficient loop. -/
structure CalState where
  coefficient : List Nat
  calc_chksum : Nat
  uart : Uart
deriving DecidableEq

/-- Body of the coefficient loop (lines 268-269). -/
def coefficientStep (T : Transport) (st : CalState) (i : Nat) : CalState :=
  let r := Cse7761Read T (CSE7761_REG_RMSIAC + i) 2 st.uart
  let word := r.1 % 65536
  { coefficient := st.coefficient.set i word,
    calc_chksum := (st.calc_chksum + word) % 65536,
    uart := r.2 }

/-- Lines 266-270: the loop over the eight coefficient registers. -/
def readCoefficients (T : Transport) (s : Sensor) : CalState :=
  (List.range 8).foldl (coefficientStep T)
    { coefficient := s.data.coefficient, calc_chksum := 0xFFFF, uart := s.uart }

/-- Lines 266-283: coefficients read and checked, defaults installed when the
check fails, then the enable-write command sent. -/
def chipInitCalibrate (T : Transport) (s : Sensor) : Sensor :=
  let st := readCoefficients T s
  let calc_chksum := 0xFFFF - st.calc_chksum
  let r := Cse7761Read T CSE7761_REG_COEFFCHKSUM 2 st.uart
  let coeff_chksum := r.1 % 65536
  let coefficient :=
    if calc_chksum ≠ coeff_chksum ∨ calc_chksum = 0 then
      ((st.coefficient.set RmsIAC CSE7761_IREF).set RmsUC CSE7761_UREF).set
        PowerPAC CSE7761_PREF
    else st.coefficient
  { s with
    data := { s.data with coefficient := coefficient },
    uart := Cse7761Write CSE7761_SPECIAL_COMMAND CSE7761_CMD_ENABLE_WRITE r.2 }

/-- Line 289: the read of the system status register, as the raw result of
`Cse7761Read` and the line afterwards. -/
def chipInitStatus (T : Transport) (s : Sensor) : Nat × Uart :=
  Cse7761Read T CSE7761_REG_SYSSTATUS 1 (chipInitCalibrate T s).uart

/-- Lines 312-433: the four writes to the protected configuration registers. -/
def chipInitConfigure (u : Uart) : Uart :=
  let u := Cse7761Write (CSE7761_REG_SYSCON ||| 0x80) 0xFF04 u
  let u := Cse7761Write (CSE7761_REG_EMUCON ||| 0x80) 0x1183 u
  let u := Cse7761Write (CSE7761_REG_EMUCON2 ||| 0x80) 0x0FC1 u
  Cse7761Write (CSE7761_REG_PULSE1SEL ||| 0x80) 0x3290 u

/-- `Cse7761ChipInit()`. -/
def Cse7761ChipInit (T : Transport) (s : Sensor) : Bool × Sensor :=
  let s1 := chipInitCalibrate T s
  let r := chipInitStatus T s
  let sys_status := r.1 % 256
  if sys_status &&& 0x10 ≠ 0 then
    (true, { s1 with uart := chipInitConfigure r.2 })
  else
    (false, { s1 with uart := r.2 })

/-! ## `Cse7761GetData` (lines 441-507) -/

/-- The expression `(value & 0x80000000) ? (~value) + 1 : value` on `uint32_t`. -/
def powerMagnitude (value : Nat) : Nat :=
  if value &&& 0x80000000 ≠ 0 then ((0xFFFFFFFF - value) + 1) % 2 ^ 32 else value

/-- Lines 447-449. -/
def getVoltage (T : Transport) (s : Sensor) : Sensor :=
  let r := Cse7761ReadFallback T CSE7761_REG_RMSU s.data.voltage_rms 3 s.uart
  { s with
    data := { s.data with voltage_rms := if r.1 ≥ 0x800000 then 0 else r.1 },
    uart := r.2 }

/-- Lines 451-459 for channel 0 and 461-469 for channel 1: `regI` and `regP` are
the current and power registers of channel `ch`. -/
def getChannel (T : Transport) (regI regP ch : Nat) (s : Sensor) : Sensor :=
  let r := Cse7761ReadFallback T regI (s.data.current_rms.getD ch 0) 3 s.uart
  let current_rms :=
    s.data.current_rms.set ch (if r.1 ≥ 0x800000 ∨ r.1 < 1600 then 0 else r.1)
  let p := Cse7761ReadFallback T regP (s.data.active_power.getD ch 0) 4 r.2
  let active_power :=
    s.data.active_power.set ch
      (if 0 = current_rms.getD ch 0 then 0 else powerMagnitude p.1)
  { s with
    data := { s.data with current_rms := current_rms, active_power := active_power },
    uart := p.2 }

/-- Lines 485-505 for one channel.  Both divisors are computed first (lines 486
and 488), whatever the sensor pointers are; a division by zero in one of them
traps and is the only entry.  Otherwise power is published first, then current,
each only when its sensor pointer is non-null.  The Boolean tells whether the
channel trapped. -/
def publishChannel (d : CSE7761Data) (hasPower hasCurrent : Bool) (power current : Sink)
    (ch : Nat) : List Published × Bool :=
  match Cse7761Ref d.coefficient PowerPAC with
  | none => ([{ sink := power, raw := d.active_power.getD ch 0, ref := none }], true)
  | some p =>
    match Cse7761Ref d.coefficient RmsIAC with
    | none => ([{ sink := current, raw := d.current_rms.getD ch 0, ref := none }], true)
    | some i =>
      ((if hasPower then
            [{ sink := power, raw := d.active_power.getD ch 0, ref := some p }]
          else []) ++
        (if hasCurrent then
            [{ sink := current, raw := d.current_rms.getD ch 0, ref := some i }]
          else []),
        false)

/-- Trace of lines 478-506 in program order: the voltage divisor is computed
(line 478, a trap when it divides by zero), the voltage is published when its
sensor pointer is non-null, then channel 0 and, unless channel 0 trapped,
channel 1. -/
def publishTrace (s : Sensor) : List Published :=
  match Cse7761Ref s.data.coefficient RmsUC with
  | none => [{ sink := Sink.voltage, raw := s.data.voltage_rms, ref := none }]
  | some u =>
    let voltage : List Published :=
      if s.sinks.voltage_sensor_ then
        [{ sink := Sink.voltage, raw := s.data.voltage_rms, ref := some u }]
      else []
    let channel0 :=
      publishChannel s.data s.sinks.power_sensor_1_ s.sinks.current_sensor_1_
        Sink.power1 Sink.current1 0
    let channel1 :=
      publishChannel s.data s.sinks.power_sensor_2_ s.sinks.current_sensor_2_
        Sink.power2 Sink.current2 1
    if channel0.2 then voltage ++ channel0.1 else voltage ++ channel0.1 ++ channel1.1

/-- Lines 478-506: conversion and publishing, appended to the log.  When the
trace ends in a trap the device does not go on; the model keeps the state the
trap left, which is all the theorems below speak of. -/
def publishAll (s : Sensor) : Sensor :=
  { s with published := s.published ++ publishTrace s }

/-- `Cse7761GetData()`. -/
def Cse7761GetData (T : Transport) (s : Sensor) : Sensor :=
  let s := getVoltage T s
  let s := getChannel T CSE7761_REG_RMSIA CSE7761_REG_POWERPA 0 s
  let s := getChannel T CSE7761_REG_RMSIB CSE7761_REG_POWERPB 1 s
  publishAll s

/-! ## `loop` and `update` (lines 137-173) -/

/-- Branch of `loop()` for `init == 2` (lines 143-146). -/
def loopIdentify (T : Transport) (s : Sensor) : Sensor :=
  let r := Cse7761Read T 0x00 2 s.uart
  let syscon := r.1 % 65536
  let s := { s with uart := r.2 }
  if 0x0A04 = syscon then
    let c := Cse7761ChipInit T s
    if c.1 then { c.2 with data := { c.2.data with ready := 1 } } else c.2
  else s

/-- Branch of `loop()` for `init == 1` (lines 148-152). -/
def loopFinish (s : Sensor) : Sensor :=
  if 1 = s.data.ready then
    { s with
      data := { s.data with ready := 2 },
      uart := Cse7761Write CSE7761_SPECIAL_COMMAND CSE7761_CMD_CLOSE_WRITE s.uart }
  else s

/-- `loop()` with `millis()` reading `now`. -/
def loop (T : Transport) (now : Nat) (s : Sensor) : Sensor :=
  if s.data.init ≠ 0 ∧ now > s.last_init + 1000 then
    let s := { s with last_init := now }
    let s :=
      if 3 = s.data.init then
        { s with uart := Cse7761Write CSE7761_SPECIAL_COMMAND CSE7761_CMD_RESET s.uart }
      else if 2 = s.data.init then loopIdentify T s
      else if 1 = s.data.init then loopFinish s
      else s
    { s with data := { s.data with init := s.data.init - 1 } }
  else s

/-- `update()`. -/
def update (T : Transport) (s : Sensor) : Sensor :=
  if 2 = s.data.ready then Cse7761GetData T s else s

/-- A call made by the host framework. -/
inductive Call where
  | loop (now : Nat)
  | update
deriving DecidableEq

/-- One framework call. -/
def step (T : Transport) (s : Sensor) : Call → Sensor
  | Call.loop now => loop T now s
  | Call.update => update T s

/-- A sequence of framework calls, first call first. -/
def run (T : Transport) (calls : List Call) (s : Sensor) : Sensor :=
  calls.foldl (step T) s

/-! ## Specification-side vocabulary -/

/-- Big-endian value of a byte string. -/
def bigEndian (bytes : List Nat) : Nat :=
  bytes.foldl (fun acc b => acc * 256 + b) 0

/-- The trailing byte the chip appends to a response: the complement of
`0xA5 + register + sum of the value bytes`, modulo 256. -/
def responseChecksum (reg : Nat) (bytes : List Nat) : Nat :=
  255 - (0xA5 + reg + bytes.sum) % 256

/-- The bytes stored by the receive loop, `buffer[0 .. rcvd)`. -/
def collected (size : Nat) (polls : List Int) : List Nat :=
  (receive size polls).buffer.take (receive size polls).rcvd

/-- Relation between the countdown and the readiness flag: `init <= 4`, and
`ready` is 0, or 1 with `init == 1`, or 2 with `init == 0`. -/
def InitReadyInv (d : CSE7761Data) : Prop :=
  d.init ≤ 4 ∧ (d.ready = 0 ∨ (d.ready = 1 ∧ d.init = 1) ∨ (d.ready = 2 ∧ d.init = 0))

/-- The four frames that configure the protected registers. -/
def configFrames : List (List Nat) :=
  [Cse7761WriteBuffer (CSE7761_REG_SYSCON ||| 0x80) 0xFF04,
    Cse7761WriteBuffer (CSE7761_REG_EMUCON ||| 0x80) 0x1183,
    Cse7761WriteBuffer (CSE7761_REG_EMUCON2 ||| 0x80) 0x0FC1,
    Cse7761WriteBuffer (CSE7761_REG_PULSE1SEL ||| 0x80) 0x3290]

/-- A line that answers a read of the system control register with 0x0A04, a
read of the system status register with 0x10, and nothing else. -/
def answeringLine : Transport := fun _ reg =>
  if reg = 0x00 then [0x0A, 0x04, 0x4C]
  else if reg = 0x43 then [0x10, 0x07]
  else []

/-- A line that never answers. -/
def silentLine : Transport := fun _ _ => []

/-- The checksum of lines 266-271 as a function of the words stored in the
coefficient array: start at 0xFFFF, add each word modulo 2^16, complement. -/
def calcChecksum (words : List Nat) : Nat :=
  0xFFFF - words.foldl (fun calc_chksum word => (calc_chksum + word) % 65536) 0xFFFF

/-- The words obtained by reading the registers `0x70 + i` for `i < n` in
ascending order on the line `u`, each as stored in a `uint16_t`, together with
the line afterwards. -/
def coefficientWords (T : Transport) (n : Nat) (u : Uart) : List Nat × Uart :=
  (List.range n).foldl
    (fun acc i =>
      ((acc.1 ++ [(Cse7761Read T (CSE7761_REG_RMSIAC + i) 2 acc.2).1 % 65536]),
        (Cse7761Read T (CSE7761_REG_RMSIAC + i) 2 acc.2).2))
    ([], u)

/-- Two's-complement reading of a 32-bit word. -/
def signed32 (v : Nat) : Int :=
  if v < 2 ^ 31 then (v : Int) else (v : Int) - 2 ^ 32

/-- A line on which the chip identifies itself and grants write access, and
whose calibration block holds the word 1 for `RmsIAC`, the word 0 for the other
seven coefficients and the matching checksum word 0xFFFF. -/
def zeroWordLine : Transport := fun _ reg =>
  if reg = 0x00 then [0x0A, 0x04, 0x4C]
  else if reg = 0x43 then [0x10, 0x07]
  else if reg = 0x70 then [0x00, 0x01, 0xE9]
  else if reg = 0x6F then [0xFF, 0xFF, 0xED]
  else [0x00, 0x00, Int.ofNat (responseChecksum reg [0x00, 0x00])]

/-- A well-formed response to a read of `reg` carrying the value bytes `bytes`,
delivered at consecutive polls. -/
def responseFrame (reg : Nat) (bytes : List Nat) : List Int :=
  (bytes ++ [responseChecksum reg bytes]).map Int.ofNat

/-- A line on which the chip identifies itself and grants write access, and
whose calibration block holds the word 1 for `RmsIAC`, `RmsUC` and `PowerPAC`,
the word 0 for the other five coefficients and the matching checksum word
0xFFFD. -/
def unitWordLine : Transport := fun _ reg =>
  if reg = 0x00 then responseFrame reg [0x0A, 0x04]
  else if reg = 0x43 then responseFrame reg [0x10]
  else if reg = 0x70 ∨ reg = 0x72 ∨ reg = 0x73 then responseFrame reg [0x00, 0x01]
  else if reg = 0x6F then responseFrame reg [0xFF, 0xFD]
  else responseFrame reg [0x00, 0x00]

/-- A line that answers the voltage register with 0x7FFFFF, the channel A
current register with 1600 and the channel A power register with 0xFFFFFFFF,
and nothing else. -/
def loadLine : Transport := fun _ reg =>
  if reg = 0x26 then responseFrame reg [0x7F, 0xFF, 0xFF]
  else if reg = 0x24 then responseFrame reg [0x00, 0x06, 0x40]
  else if reg = 0x2C then responseFrame reg [0xFF, 0xFF, 0xFF, 0xFF]
  else []

/-- Range relation between the stored measurements: both arrays have their two
entries, `voltage_rms < 0x800000`, each `current_rms[i]` is 0 or lies in
1600..0x7FFFFF, each `active_power[i]` is at most 0x80000000, and
`active_power[i]` is 0 whenever `current_rms[i]` is 0. -/
def MeasurementInv (d : CSE7761Data) : Prop :=
  d.current_rms.length = 2 ∧ d.active_power.length = 2 ∧
    d.voltage_rms < 0x800000 ∧
    (d.current_rms.getD 0 0 = 0 ∨
      (1600 ≤ d.current_rms.getD 0 0 ∧ d.current_rms.getD 0 0 ≤ 0x7FFFFF)) ∧
    (d.current_rms.getD 1 0 = 0 ∨
      (1600 ≤ d.current_rms.getD 1 0 ∧ d.current_rms.getD 1 0 ≤ 0x7FFFFF)) ∧
    d.active_power.getD 0 0 ≤ 0x80000000 ∧ d.active_power.getD 1 0 ≤ 0x80000000 ∧
    (d.current_rms.getD 0 0 = 0 → d.active_power.getD 0 0 = 0) ∧
    (d.current_rms.getD 1 0 = 0 → d.active_power.getD 1 0 = 0)

/-! ## Arithmetic and list helpers -/

theorem and_255 (x : Nat) : x &&& 0xFF = x % 256 :=
  Nat.and_pow_two_sub_one_eq_mod x 8

theorem shiftRight_8 (x : Nat) : x >>> 8 = x / 256 :=
  Nat.shiftRight_eq_div_pow x 8

theorem shift_or_byte (r b : Nat) (hb : b < 256) : (r <<< 8) ||| b = r * 256 + b := by
  have h := Nat.mul_add_lt_is_or (i := 8) (b := b) (by simpa using hb) r
  rw [Nat.shiftLeft_eq, Nat.mul_comm r (2 ^ 8), ← h]

theorem bigEndian_append (xs : List Nat) (b : Nat) :
    bigEndian (xs ++ [b]) = bigEndian xs * 256 + b := by
  simp [bigEndian, List.foldl_append]

theorem bigEndian_lt (xs : List Nat) (hxs : ∀ b ∈ xs, b < 256) :
    bigEndian xs < 256 ^ xs.length := by
  induction xs using List.reverseRecOn with
  | nil => simp [bigEndian]
  | append_singleton xs b ih =>
    have h1 := ih (fun x hx => hxs x (by simp [hx]))
    have h2 : b < 256 := hxs b (by simp)
    rw [bigEndian_append, List.length_append, List.length_singleton, pow_succ]
    omega

theorem getD_append_length (xs rest : List Nat) (c : Nat) :
    (xs ++ c :: rest).getD xs.length 0 = c := by
  induction xs with
  | nil => rfl
  | cons x xs ih => simpa using ih

theorem sum_set_add (xs : List Nat) :
    ∀ (i b : Nat), i < xs.length → (xs.set i b).sum + xs.getD i 0 = xs.sum + b := by
  induction xs with
  | nil => intro i b h; simp at h
  | cons x xs ih =>
    intro i b h
    cases i with
    | zero => simp; omega
    | succ i =>
      have := ih i b (by simpa using h)
      simp only [List.set_cons_succ, List.sum_cons, List.getD_cons_succ]
      omega

/-! ## The response parsing step -/

theorem parseLoop_succ (buffer : List Nat) (n crc : Nat) :
    parseLoop buffer (n + 1) crc =
      ((((parseLoop buffer n crc).1 <<< 8) % 2 ^ 32) ||| buffer.getD n 0,
        ((parseLoop buffer n crc).2 + buffer.getD n 0) % 256) := by
  simp [parseLoop, List.range_succ, List.foldl_append]

theorem parseLoop_frame (bytes : List Nat) :
    ∀ (rest : List Nat) (crc : Nat), crc < 256 → bytes.length ≤ 4 → (∀ b ∈ bytes, b < 256) →
      parseLoop (bytes ++ rest) bytes.length crc =
        (bigEndian bytes, (crc + bytes.sum) % 256) := by
  induction bytes using List.reverseRecOn with
  | nil =>
    intro rest crc hcrc _ _
    simp [parseLoop, bigEndian, Nat.mod_eq_of_lt hcrc]
  | append_singleton xs b ih =>
    intro rest crc hcrc hlen hb
    have hxs : ∀ x ∈ xs, x < 256 := fun x hx => hb x (by simp [hx])
    have hb256 : b < 256 := hb b (by simp)
    simp only [List.length_append, List.length_singleton] at hlen
    have hlt := bigEndian_lt xs hxs
    have hpow : 256 ^ xs.length ≤ 256 ^ 3 := Nat.pow_le_pow_right (by norm_num) (by omega)
    have hget : (xs ++ [b] ++ rest).getD xs.length 0 = b := by
      simpa using getD_append_length xs rest b
    rw [List.length_append, List.length_singleton, parseLoop_succ, hget]
    rw [List.append_assoc, ih ([b] ++ rest) crc hcrc (by omega) hxs]
    have hsmall : (bigEndian xs <<< 8) % 2 ^ 32 = bigEndian xs <<< 8 := by
      apply Nat.mod_eq_of_lt
      rw [Nat.shiftLeft_eq]
      norm_num at hpow ⊢
      omega
    simp only [hsmall, shift_or_byte _ _ hb256, bigEndian_append, List.sum_append,
      List.sum_singleton]
    congr 1
    omega

/-- The parsing step on a buffer that starts with `bytes` followed by `ck`. -/
theorem parseResponse_frame (reg : Nat) (bytes rest : List Nat) (ck : Nat)
    (hlen : bytes.length ≤ 4) (hbytes : ∀ b ∈ bytes, b < 256) :
    parseResponse reg (bytes ++ ck :: rest) (bytes.length + 1) =
      if responseChecksum reg bytes ≠ ck then Except.error RxError.checksumMismatch
      else Except.ok (bigEndian bytes) := by
  have hget : (bytes ++ ck :: rest).getD bytes.length 0 = ck :=
    getD_append_length bytes rest ck
  have hcrc : ((0xA5 + reg) % 256 + bytes.sum) % 256 = (0xA5 + reg + bytes.sum) % 256 := by
    omega
  simp only [parseResponse, Nat.add_sub_cancel,
    parseLoop_frame bytes (ck :: rest) _ (Nat.mod_lt _ (by norm_num)) hlen hbytes,
    hget, hcrc, responseChecksum]

/-! ## The receive loop -/

theorem rxPoll_inv (size : Nat) (value : Int) (st : RxState)
    (hlen : st.buffer.length = 8) (hbytes : ∀ b ∈ st.buffer, b < 256)
    (hle : st.rcvd ≤ size) (h7 : st.rcvd ≤ 7) :
    (rxPoll value st).buffer.length = 8 ∧ (∀ b ∈ (rxPoll value st).buffer, b < 256) ∧
      (rxPoll value st).rcvd ≤ size + 1 ∧ (rxPoll value st).rcvd ≤ 7 := by
  unfold rxPoll
  split
  · rename_i h
    refine ⟨by simpa using hlen, ?_, by simp; omega, by simp; omega⟩
    intro b hb
    rcases List.mem_or_eq_of_mem_set hb with h1 | h1
    · exact hbytes b h1
    · rw [h1]; exact Nat.mod_lt _ (by norm_num)
  · exact ⟨hlen, hbytes, by omega, h7⟩

theorem rxLoop_inv (size : Nat) (polls : List Int) :
    ∀ st : RxState, st.buffer.length = 8 → (∀ b ∈ st.buffer, b < 256) →
      st.rcvd ≤ size + 1 → st.rcvd ≤ 7 →
      (rxLoop size polls st).buffer.length = 8 ∧
        (∀ b ∈ (rxLoop size polls st).buffer, b < 256) ∧
        (rxLoop size polls st).rcvd ≤ size + 1 ∧ (rxLoop size polls st).rcvd ≤ 7 := by
  induction polls with
  | nil => intro st h1 h2 h3 h4; exact ⟨h1, h2, h3, h4⟩
  | cons value polls ih =>
    intro st h1 h2 h3 h4
    unfold rxLoop
    split
    · rename_i hle
      obtain ⟨a, b, c, d⟩ := rxPoll_inv size value st h1 h2 hle h4
      exact ih _ a b c d
    · exact ⟨h1, h2, h3, h4⟩

theorem receive_inv (size : Nat) (polls : List Int) :
    (receive size polls).buffer.length = 8 ∧
      (∀ b ∈ (receive size polls).buffer, b < 256) ∧
      (receive size polls).rcvd ≤ size + 1 ∧ (receive size polls).rcvd ≤ 7 := by
  apply rxLoop_inv
  · simp
  · intro b hb
    rw [List.eq_of_mem_replicate hb]
    norm_num
  · simp
  · simp

theorem collected_length (size : Nat) (polls : List Int) :
    (collected size polls).length = (receive size polls).rcvd := by
  obtain ⟨h8, _, _, h7⟩ := receive_inv size polls
  simp only [collected, List.length_take]
  omega

theorem collected_lt (size : Nat) (polls : List Int) :
    ∀ b ∈ collected size polls, b < 256 := fun b hb =>
  (receive_inv size polls).2.1 b (List.mem_of_mem_take hb)

/-- Decomposition of the receive buffer when at least one byte was stored. -/
theorem receive_split (size : Nat) (polls : List Int) (h : (receive size polls).rcvd ≠ 0) :
    ∃ bytes ck rest, (receive size polls).buffer = bytes ++ ck :: rest ∧
      bytes.length + 1 = (receive size polls).rcvd ∧
      collected size polls = bytes ++ [ck] ∧ ∀ b ∈ bytes, b < 256 := by
  obtain ⟨h8, hb, _, h7⟩ := receive_inv size polls
  generalize hst : receive size polls = st at *
  have hlt : st.rcvd - 1 < st.buffer.length := by omega
  refine ⟨st.buffer.take (st.rcvd - 1), st.buffer[st.rcvd - 1], st.buffer.drop st.rcvd,
    ?_, ?_, ?_, ?_⟩
  · have h1 := List.drop_eq_getElem_cons hlt
    have h2 : st.rcvd - 1 + 1 = st.rcvd := by omega
    rw [h2] at h1
    rw [← h1, List.take_append_drop]
  · simp only [List.length_take]; omega
  · have h2 : st.rcvd = (st.rcvd - 1) + 1 := by omega
    simp only [collected, hst]
    conv_lhs => rw [h2, List.take_succ]
    simp [List.getElem?_eq_getElem hlt]
  · intro b hb1
    exact hb b (List.mem_of_mem_take hb1)

theorem readOnceOutcome_eq (reg size : Nat) (polls : List Int) :
    readOnceOutcome reg size polls =
      if (collected size polls).length = 0 then Except.error RxError.rxNone
      else if (collected size polls).length > 5 then Except.error RxError.rxOverflow
      else if (collected size polls).getLast? ≠
          some (responseChecksum reg (collected size polls).dropLast) then
        Except.error RxError.checksumMismatch
      else Except.ok (bigEndian (collected size polls).dropLast) := by
  rw [collected_length]
  unfold readOnceOutcome checkAndParse
  by_cases h0 : (receive size polls).rcvd = 0
  · simp [h0]
  · by_cases h5 : (receive size polls).rcvd > 5
    · simp [h0, h5]
    · obtain ⟨bytes, ck, rest, hbuf, hlen, hcol, hbytes⟩ := receive_split size polls h0
      rw [if_neg h0, if_neg h5, if_neg h0, if_neg h5, hbuf, ← hlen,
        parseResponse_frame reg bytes rest ck (by omega) hbytes, hcol]
      simp only [List.dropLast_concat, List.getLast?_concat, ne_eq, Option.some.injEq]
      by_cases hck : responseChecksum reg bytes = ck
      · simp [hck]
      · have hck2 : ¬ ck = responseChecksum reg bytes := fun h => hck h.symm
        simp [hck, hck2]

/-! ## `Cse7761ReadOnce`, `Cse7761Read`, `Cse7761ReadFallback` -/

/-- `Cse7761ReadOnce` in one piece: the request goes out, one receive window
is used, and the outcome decides the result. -/
theorem readOnce_eq (T : Transport) (reg size value : Nat) (u : Uart) :
    Cse7761ReadOnce T reg size value u =
      match readOnceOutcome reg size (T u.polled reg) with
      | Except.ok result =>
        (true, result, { tx := u.tx ++ [[0xA5, reg % 256]], polled := u.polled + 1 })
      | Except.error _ =>
        (false, value, { tx := u.tx ++ [[0xA5, reg % 256]], polled := u.polled + 1 }) :=
  rfl

theorem readOnce_uart (T : Transport) (reg size value : Nat) (u : Uart) :
    (Cse7761ReadOnce T reg size value u).2.2 =
      { tx := u.tx ++ [[0xA5, reg % 256]], polled := u.polled + 1 } := by
  rw [readOnce_eq]
  cases readOnceOutcome reg size (T u.polled reg) <;> rfl

theorem readOnce_result (T : Transport) (reg size value : Nat) (u : Uart) :
    ((Cse7761ReadOnce T reg size value u).1, (Cse7761ReadOnce T reg size value u).2.1) =
      match readOnceOutcome reg size (T u.polled reg) with
      | Except.ok result => (true, result)
      | Except.error _ => (false, value) := by
  rw [readOnce_eq]
  cases readOnceOutcome reg size (T u.polled reg) <;> rfl

theorem readOnce_fail_value (T : Transport) (reg size value : Nat) (u : Uart)
    (h : (Cse7761ReadOnce T reg size value u).1 = false) :
    (Cse7761ReadOnce T reg size value u).2.1 = value := by
  have h1 := readOnce_result T reg size value u
  cases hout : readOnceOutcome reg size (T u.polled reg) with
  | error e => rw [hout] at h1; exact (Prod.mk.inj h1).2
  | ok v =>
    rw [hout] at h1
    have := (Prod.mk.inj h1).1
    rw [h] at this
    cases this

/-- `Cse7761Read` as its three possible attempts. -/
theorem read_eq (T : Transport) (reg size : Nat) (u : Uart) :
    Cse7761Read T reg size u =
      if (Cse7761ReadOnce T reg size 0 u).1 then
        (Cse7761ReadOnce T reg size 0 u).2
      else if (Cse7761ReadOnce T reg size (Cse7761ReadOnce T reg size 0 u).2.1
          (Cse7761ReadOnce T reg size 0 u).2.2).1 then
        (Cse7761ReadOnce T reg size (Cse7761ReadOnce T reg size 0 u).2.1
          (Cse7761ReadOnce T reg size 0 u).2.2).2
      else
        (Cse7761ReadOnce T reg size
          (Cse7761ReadOnce T reg size (Cse7761ReadOnce T reg size 0 u).2.1
            (Cse7761ReadOnce T reg size 0 u).2.2).2.1
          (Cse7761ReadOnce T reg size (Cse7761ReadOnce T reg size 0 u).2.1
            (Cse7761ReadOnce T reg size 0 u).2.2).2.2).2 := by
  simp only [Cse7761Read, readLoop]
  generalize Cse7761ReadOnce T reg size 0 u = a1
  obtain ⟨b1, v1, u1⟩ := a1
  cases b1 <;> simp

/-! ## Effect of the reads on the line, and the range of the values read -/

theorem read_success (T : Transport) (reg size v : Nat) (u : Uart)
    (h : readOnceOutcome reg size (T u.polled reg) = Except.ok v) :
    Cse7761Read T reg size u =
      (v, { tx := u.tx ++ [[0xA5, reg % 256]], polled := u.polled + 1 }) := by
  have h1 := readOnce_eq T reg size 0 u
  rw [h] at h1
  rw [read_eq, h1]
  rfl

theorem read_line (T : Transport) (reg size : Nat) (u : Uart) :
    ∃ k, k ≤ 3 ∧ (Cse7761Read T reg size u).2 =
      { tx := u.tx ++ List.replicate k [0xA5, reg % 256], polled := u.polled + k } := by
  rw [read_eq]
  have h1 := readOnce_uart T reg size 0 u
  generalize Cse7761ReadOnce T reg size 0 u = a1 at h1 ⊢
  have h2 := readOnce_uart T reg size a1.2.1 a1.2.2
  generalize Cse7761ReadOnce T reg size a1.2.1 a1.2.2 = a2 at h2 ⊢
  have h3 := readOnce_uart T reg size a2.2.1 a2.2.2
  generalize Cse7761ReadOnce T reg size a2.2.1 a2.2.2 = a3 at h3 ⊢
  rw [h1] at h2
  rw [h2] at h3
  simp only at h2 h3
  by_cases hb1 : a1.1 = true
  · exact ⟨1, by omega, by simp [hb1, h1, List.replicate]⟩
  · by_cases hb2 : a2.1 = true
    · exact ⟨2, by omega, by simp [hb1, hb2, h2, List.replicate]⟩
    · exact ⟨3, by omega, by simp [hb1, hb2, h3, List.replicate]⟩

theorem read_appends (T : Transport) (reg size : Nat) (u : Uart) :
    ∃ w, (Cse7761Read T reg size u).2.tx = u.tx ++ w ∧ ∀ f ∈ w, f.length = 2 := by
  obtain ⟨k, _, hk⟩ := read_line T reg size u
  refine ⟨List.replicate k [0xA5, reg % 256], by rw [hk], ?_⟩
  intro f hf
  rw [List.eq_of_mem_replicate hf]
  rfl

theorem readOnceOutcome_lt (reg size v : Nat) (polls : List Int)
    (h : readOnceOutcome reg size polls = Except.ok v) : v < 256 ^ size := by
  rw [readOnceOutcome_eq] at h
  have hlen := collected_length size polls
  have hle := (receive_inv size polls).2.2.1
  have hb := collected_lt size polls
  split at h
  · cases h
  · split at h
    · cases h
    · split at h
      · cases h
      · injection h with h
        subst h
        have h1 := bigEndian_lt (collected size polls).dropLast
          (fun b hb1 => hb b (List.mem_of_mem_dropLast hb1))
        have h2 : (collected size polls).dropLast.length ≤ size := by
          rw [List.length_dropLast]; omega
        exact lt_of_lt_of_le h1 (Nat.pow_le_pow_right (by norm_num) h2)

theorem readOnce_lt (T : Transport) (reg size value : Nat) (u : Uart)
    (h : value < 256 ^ size) : (Cse7761ReadOnce T reg size value u).2.1 < 256 ^ size := by
  rw [readOnce_eq]
  cases hout : readOnceOutcome reg size (T u.polled reg) with
  | error e => exact h
  | ok v => exact readOnceOutcome_lt reg size v _ hout

/-- A value returned by `Cse7761Read(reg, size)` fits in `size` bytes. -/
theorem read_lt (T : Transport) (reg size : Nat) (u : Uart) :
    (Cse7761Read T reg size u).1 < 256 ^ size := by
  have h1 := readOnce_lt T reg size 0 u (by positivity)
  have h2 := readOnce_lt T reg size _ (Cse7761ReadOnce T reg size 0 u).2.2 h1
  have h3 := readOnce_lt T reg size _
    (Cse7761ReadOnce T reg size (Cse7761ReadOnce T reg size 0 u).2.1
      (Cse7761ReadOnce T reg size 0 u).2.2).2.2 h2
  rw [read_eq]
  split
  · exact h1
  · split
    · exact h2
    · exact h3

/-! ## `Cse7761ChipInit` -/

theorem coefficients_appends (T : Transport) (is : List Nat) :
    ∀ st : CalState, ∃ w, (is.foldl (coefficientStep T) st).uart.tx = st.uart.tx ++ w ∧
      ∀ f ∈ w, f.length = 2 := by
  induction is with
  | nil => intro st; exact ⟨[], by simp, by simp⟩
  | cons i is ih =>
    intro st
    obtain ⟨w1, h1, h1'⟩ := read_appends T (CSE7761_REG_RMSIAC + i) 2 st.uart
    obtain ⟨w2, h2, h2'⟩ := ih (coefficientStep T st i)
    refine ⟨w1 ++ w2, ?_, ?_⟩
    · rw [List.foldl_cons, h2]
      simp only [coefficientStep, h1, List.append_assoc]
    · intro f hf
      rcases List.mem_append.1 hf with h | h
      · exact h1' f h
      · exact h2' f h

/-- Up to and including the status read, `Cse7761ChipInit` sends only 2-byte
read requests and the enable-write command. -/
theorem chipInitStatus_appends (T : Transport) (s : Sensor) :
    ∃ w, (chipInitStatus T s).2.tx = s.uart.tx ++ w ∧
      ∀ f ∈ w, f.length = 2 ∨
        f = Cse7761WriteBuffer CSE7761_SPECIAL_COMMAND CSE7761_CMD_ENABLE_WRITE := by
  obtain ⟨w1, h1, h1'⟩ := coefficients_appends T (List.range 8)
    { coefficient := s.data.coefficient, calc_chksum := 0xFFFF, uart := s.uart }
  obtain ⟨w2, h2, h2'⟩ := read_appends T CSE7761_REG_COEFFCHKSUM 2 (readCoefficients T s).uart
  obtain ⟨w3, h3, h3'⟩ := read_appends T CSE7761_REG_SYSSTATUS 1 (chipInitCalibrate T s).uart
  have hcal : (chipInitCalibrate T s).uart.tx = s.uart.tx ++ w1 ++ w2 ++
      [Cse7761WriteBuffer CSE7761_SPECIAL_COMMAND CSE7761_CMD_ENABLE_WRITE] := by
    simp only [chipInitCalibrate, Cse7761Write, write_array, h2]
    rw [readCoefficients, h1]
  refine ⟨w1 ++ w2 ++ [Cse7761WriteBuffer CSE7761_SPECIAL_COMMAND CSE7761_CMD_ENABLE_WRITE]
    ++ w3, ?_, ?_⟩
  · rw [chipInitStatus, h3, hcal]
    simp only [List.append_assoc]
  · intro f hf
    simp only [List.mem_append, List.mem_singleton] at hf
    rcases hf with ((h | h) | h) | h
    · exact Or.inl (h1' f h)
    · exact Or.inl (h2' f h)
    · exact Or.inr h
    · exact Or.inl (h3' f h)

theorem chipInitConfigure_tx (u : Uart) :
    (chipInitConfigure u).tx = u.tx ++
      [[0xA5, 0x80, 0xFF, 0x04, 0xD7], [0xA5, 0x81, 0x11, 0x83, 0x45],
        [0xA5, 0x93, 0x0F, 0xC1, 0xF7], [0xA5, 0x9D, 0x32, 0x90, 0xFB]] := by
  simp only [chipInitConfigure, Cse7761Write, write_array, List.append_assoc]
  rfl

theorem chipInit_eq (T : Transport) (s : Sensor) :
    Cse7761ChipInit T s =
      if (chipInitStatus T s).1 % 256 &&& 0x10 ≠ 0 then
        (true, { chipInitCalibrate T s with uart := chipInitConfigure (chipInitStatus T s).2 })
      else
        (false, { chipInitCalibrate T s with uart := (chipInitStatus T s).2 }) :=
  rfl

theorem chipInit_data (T : Transport) (s : Sensor) :
    (Cse7761ChipInit T s).2.data.init = s.data.init ∧
      (Cse7761ChipInit T s).2.data.ready = s.data.ready ∧
      (Cse7761ChipInit T s).2.last_init = s.last_init := by
  rw [chipInit_eq]
  split <;> exact ⟨rfl, rfl, rfl⟩

theorem chipInit_true (T : Transport) (s : Sensor)
    (h : (chipInitStatus T s).1 % 256 &&& 0x10 ≠ 0) :
    (Cse7761ChipInit T s).1 = true ∧
      (Cse7761ChipInit T s).2.uart = chipInitConfigure (chipInitStatus T s).2 := by
  rw [chipInit_eq]
  simp only [h, ne_eq, not_false_eq_true, if_true, and_self]

theorem chipInit_false (T : Transport) (s : Sensor)
    (h : (chipInitStatus T s).1 % 256 &&& 0x10 = 0) :
    (Cse7761ChipInit T s).1 = false ∧
      (Cse7761ChipInit T s).2.uart = (chipInitStatus T s).2 := by
  rw [chipInit_eq]
  simp only [h, ne_eq, not_true_eq_false, if_false, and_self]

/-! ## `loop`, `update` and runs -/

theorem getData_data (T : Transport) (s : Sensor) :
    (Cse7761GetData T s).data.init = s.data.init ∧
      (Cse7761GetData T s).data.ready = s.data.ready :=
  ⟨rfl, rfl⟩

theorem update_data (T : Transport) (s : Sensor) :
    (update T s).data.init = s.data.init ∧ (update T s).data.ready = s.data.ready := by
  unfold update
  split
  · exact getData_data T s
  · exact ⟨rfl, rfl⟩

theorem loopIdentify_data (T : Transport) (s : Sensor) :
    (loopIdentify T s).data.init = s.data.init ∧
      ((loopIdentify T s).data.ready = s.data.ready ∨ (loopIdentify T s).data.ready = 1) := by
  unfold loopIdentify
  simp only
  split
  · split
    · exact ⟨(chipInit_data T _).1, Or.inr rfl⟩
    · exact ⟨(chipInit_data T _).1, Or.inl (chipInit_data T _).2.1⟩
  · exact ⟨rfl, Or.inl rfl⟩

theorem loop_closed (T : Transport) (now : Nat) (s : Sensor)
    (h : s.data.init = 0 ∨ now ≤ s.last_init + 1000) : loop T now s = s := by
  unfold loop
  rw [if_neg]
  rintro ⟨h1, h2⟩
  rcases h with h | h
  · exact h1 h
  · omega

theorem loop_wait (T : Transport) (now : Nat) (s : Sensor)
    (hinit : s.data.init = 4) (hgate : now > s.last_init + 1000) :
    loop T now s = { s with last_init := now, data := { s.data with init := 3 } } := by
  simp [loop, hinit, hgate]

theorem loop_reset (T : Transport) (now : Nat) (s : Sensor)
    (hinit : s.data.init = 3) (hgate : now > s.last_init + 1000) :
    loop T now s =
      { s with
        last_init := now,
        data := { s.data with init := 2 },
        uart := Cse7761Write CSE7761_SPECIAL_COMMAND CSE7761_CMD_RESET s.uart } := by
  simp [loop, hinit, hgate]

theorem loop_identify (T : Transport) (now : Nat) (s : Sensor)
    (hinit : s.data.init = 2) (hgate : now > s.last_init + 1000) :
    loop T now s =
      { loopIdentify T { s with last_init := now } with
        data := { (loopIdentify T { s with last_init := now }).data with init := 1 } } := by
  have h := (loopIdentify_data T { s with last_init := now }).1
  simp only at h
  simp [loop, hinit, hgate, h]

theorem loop_finish (T : Transport) (now : Nat) (s : Sensor)
    (hinit : s.data.init = 1) (hgate : now > s.last_init + 1000) :
    loop T now s =
      { loopFinish { s with last_init := now } with
        data := { (loopFinish { s with last_init := now }).data with init := 0 } } := by
  have h : (loopFinish { s with last_init := now }).data.init = 1 := by
    unfold loopFinish
    split <;> exact hinit
  simp [loop, hinit, hgate, h]

/-- The status value seen by `Cse7761ChipInit` when every status read attempt
decodes a value with bit 0x10 set. -/
theorem status_bit_set (T : Transport)
    (hstatus : ∀ n, ∃ v, readOnceOutcome 0x43 1 (T n 0x43) = Except.ok v ∧ v &&& 0x10 ≠ 0)
    (s : Sensor) : (chipInitStatus T s).1 % 256 &&& 0x10 ≠ 0 := by
  obtain ⟨v, hv, hbit⟩ := hstatus (chipInitCalibrate T s).uart.polled
  have hlt := readOnceOutcome_lt 0x43 1 v _ hv
  have hread := read_success T CSE7761_REG_SYSSTATUS 1 v (chipInitCalibrate T s).uart hv
  rw [chipInitStatus, hread]
  have hmod : v % 256 = v := Nat.mod_eq_of_lt (by simpa using hlt)
  simpa [hmod] using hbit

/-- The tick in state 2 when identification and configuration succeed. -/
theorem loop_identify_success (T : Transport) (now : Nat) (s : Sensor)
    (hinit : s.data.init = 2) (hgate : now > s.last_init + 1000)
    (hsys : (Cse7761Read T 0x00 2 s.uart).1 = 0x0A04)
    (hst : (chipInitStatus T
      { s with last_init := now, uart := (Cse7761Read T 0x00 2 s.uart).2 }).1 % 256
        &&& 0x10 ≠ 0) :
    (loop T now s).data.init = 1 ∧ (loop T now s).data.ready = 1 ∧
      (loop T now s).last_init = now ∧
      (loop T now s).uart = chipInitConfigure (chipInitStatus T
        { s with last_init := now, uart := (Cse7761Read T 0x00 2 s.uart).2 }).2 := by
  have hc := chipInit_true T _ hst
  have hd := chipInit_data T
    { s with last_init := now, uart := (Cse7761Read T 0x00 2 s.uart).2 }
  rw [loop_identify T now s hinit hgate]
  simp only [loopIdentify, hsys, hc.1]
  simp only [Nat.reduceMod, if_true]
  exact ⟨trivial, trivial, hd.2.2, hc.2⟩

/-- The tick in state 1 after a successful identification. -/
theorem loop_finish_ready (T : Transport) (now : Nat) (s : Sensor)
    (hinit : s.data.init = 1) (hready : s.data.ready = 1)
    (hgate : now > s.last_init + 1000) :
    (loop T now s).data.init = 0 ∧ (loop T now s).data.ready = 2 ∧
      (loop T now s).last_init = now ∧
      (loop T now s).uart =
        Cse7761Write CSE7761_SPECIAL_COMMAND CSE7761_CMD_CLOSE_WRITE s.uart := by
  rw [loop_finish T now s hinit hgate]
  simp [loopFinish, hready]

theorem run_cons (T : Transport) (c : Call) (calls : List Call) (s : Sensor) :
    run T (c :: calls) s = run T calls (step T s c) := rfl

theorem loop_idle (T : Transport) (now : Nat) (s : Sensor)
    (hinit : 4 ≤ s.data.init) (hgate : now > s.last_init + 1000) :
    loop T now s =
      { s with last_init := now, data := { s.data with init := s.data.init - 1 } } := by
  have h0 : s.data.init ≠ 0 := by omega
  have h3 : ¬ 3 = s.data.init := by omega
  have h2 : ¬ 2 = s.data.init := by omega
  have h1 : ¬ 1 = s.data.init := by omega
  simp [loop, h0, h1, h2, h3, hgate]

theorem loop_inv (T : Transport) (now : Nat) (s : Sensor) (h : InitReadyInv s.data) :
    InitReadyInv (loop T now s).data := by
  obtain ⟨h4, hr⟩ := h
  by_cases hg : s.data.init = 0 ∨ now ≤ s.last_init + 1000
  · rw [loop_closed T now s hg]; exact ⟨h4, hr⟩
  · have h0 : s.data.init ≠ 0 := fun h => hg (Or.inl h)
    have hgate : now > s.last_init + 1000 := by
      by_contra hc
      exact hg (Or.inr (by omega))
    have hcases : s.data.init = 1 ∨ s.data.init = 2 ∨ s.data.init = 3 ∨ s.data.init = 4 := by
      omega
    rcases hcases with h1 | h2 | h3 | h4'
    · rw [loop_finish T now s h1 hgate]
      unfold loopFinish
      split
      · exact ⟨by simp, Or.inr (Or.inr ⟨rfl, rfl⟩)⟩
      · rename_i hne
        refine ⟨by simp, Or.inl ?_⟩
        simp only at hne ⊢
        omega
    · rw [loop_identify T now s h2 hgate]
      obtain ⟨_, hrd⟩ := loopIdentify_data T { s with last_init := now }
      refine ⟨by simp, ?_⟩
      simp only at hrd ⊢
      rcases hrd with hrd | hrd
      · left; rw [hrd]; omega
      · right; left; exact ⟨hrd, trivial⟩
    · rw [loop_reset T now s h3 hgate]
      refine ⟨by simp, Or.inl ?_⟩
      simp only
      omega
    · rw [loop_idle T now s (by omega) hgate]
      refine ⟨by simp; omega, Or.inl ?_⟩
      simp only
      omega

theorem update_inv (T : Transport) (s : Sensor) (h : InitReadyInv s.data) :
    InitReadyInv (update T s).data := by
  obtain ⟨hi, hr⟩ := update_data T s
  unfold InitReadyInv
  rw [hi, hr]
  exact h

theorem run_inv (T : Transport) (calls : List Call) :
    ∀ s : Sensor, InitReadyInv s.data → InitReadyInv (run T calls s).data := by
  induction calls with
  | nil => intro s h; exact h
  | cons c calls ih =>
    intro s h
    rw [run_cons]
    apply ih
    cases c with
    | loop now => exact loop_inv T now s h
    | update => exact update_inv T s h

theorem boot_inv (sinks : Sinks) : InitReadyInv (Sensor.boot sinks).data :=
  ⟨Nat.le_refl 4, Or.inl rfl⟩

/-- Once `ready` is 0 with `init <= 1`, no call changes `ready`. -/
theorem run_dead (T : Transport) (calls : List Call) :
    ∀ s : Sensor, s.data.ready = 0 → s.data.init ≤ 1 →
      (run T calls s).data.ready = 0 ∧ (run T calls s).data.init ≤ 1 := by
  induction calls with
  | nil => intro s h1 h2; exact ⟨h1, h2⟩
  | cons c calls ih =>
    intro s hr hi
    rw [run_cons]
    cases c with
    | update =>
      obtain ⟨hi', hr'⟩ := update_data T s
      exact ih _ (by simp only [step]; rw [hr', hr]) (by simp only [step]; rw [hi']; exact hi)
    | loop now =>
      simp only [step]
      by_cases hg : s.data.init = 0 ∨ now ≤ s.last_init + 1000
      · rw [loop_closed T now s hg]; exact ih s hr hi
      · have h1 : s.data.init = 1 := by
          have : s.data.init ≠ 0 := fun h => hg (Or.inl h)
          omega
        have hgate : now > s.last_init + 1000 := by
          by_contra hc
          exact hg (Or.inr (by omega))
        apply ih
        · rw [loop_finish T now s h1 hgate]
          simp [loopFinish, hr]
        · rw [loop_finish T now s h1 hgate]
          simp

/-- The tick in state 2 when identification or configuration fails. -/
theorem loop_identify_failure (T : Transport) (now : Nat) (s : Sensor)
    (hinit : s.data.init = 2) (hgate : now > s.last_init + 1000)
    (hfail : (Cse7761Read T 0x00 2 s.uart).1 ≠ 0x0A04 ∨
      (chipInitStatus T
        { s with last_init := now, uart := (Cse7761Read T 0x00 2 s.uart).2 }).1 % 256
          &&& 0x10 = 0) :
    (loop T now s).data.init = 1 ∧ (loop T now s).data.ready = s.data.ready := by
  rw [loop_identify T now s hinit hgate]
  refine ⟨rfl, ?_⟩
  have hlt := read_lt T 0x00 2 s.uart
  have hmod : (Cse7761Read T 0x00 2 s.uart).1 % 65536 = (Cse7761Read T 0x00 2 s.uart).1 :=
    Nat.mod_eq_of_lt (by simpa using hlt)
  simp only [loopIdentify, hmod]
  by_cases hsys : 0x0A04 = (Cse7761Read T 0x00 2 s.uart).1
  · have hst : (chipInitStatus T
        { s with last_init := now, uart := (Cse7761Read T 0x00 2 s.uart).2 }).1 % 256
          &&& 0x10 = 0 := by
      rcases hfail with h | h
      · exact absurd hsys.symm h
      · exact h
    have hc := chipInit_false T _ hst
    have hd := chipInit_data T
      { s with last_init := now, uart := (Cse7761Read T 0x00 2 s.uart).2 }
    simp only [hsys, if_true, hc.1]
    exact hd.2.1
  · simp only [hsys, if_false]

/-! ## The countdown -/

/-- An advancing `loop` call lowers `init` by one and stores the clock reading,
whichever branch runs. -/
theorem loop_open (T : Transport) (now : Nat) (s : Sensor)
    (h0 : s.data.init ≠ 0) (hgate : now > s.last_init + 1000) :
    (loop T now s).data.init + 1 = s.data.init ∧ (loop T now s).last_init = now := by
  have hcases : s.data.init = 1 ∨ s.data.init = 2 ∨ s.data.init = 3 ∨ 4 ≤ s.data.init := by
    omega
  rcases hcases with h | h | h | h
  · rw [loop_finish T now s h hgate]
    refine ⟨by simp [h], ?_⟩
    simp only [loopFinish]
    split <;> rfl
  · rw [loop_identify T now s h hgate]
    refine ⟨by simp [h], ?_⟩
    simp only [loopIdentify]
    split
    · split
      · exact (chipInit_data T _).2.2
      · exact (chipInit_data T _).2.2
    · rfl
  · rw [loop_reset T now s h hgate]
    exact ⟨by simp [h], rfl⟩
  · rw [loop_idle T now s h hgate]
    refine ⟨?_, rfl⟩
    simp only
    omega

theorem update_last_init (T : Transport) (s : Sensor) :
    (update T s).last_init = s.last_init := by
  unfold update
  split <;> rfl

theorem step_init (T : Transport) (s : Sensor) (c : Call) :
    (step T s c).data.init = s.data.init ∨ (step T s c).data.init + 1 = s.data.init := by
  cases c with
  | update => exact Or.inl (update_data T s).1
  | loop now =>
    simp only [step]
    by_cases hg : s.data.init = 0 ∨ now ≤ s.last_init + 1000
    · rw [loop_closed T now s hg]; exact Or.inl rfl
    · exact Or.inr (loop_open T now s (fun h => hg (Or.inl h)) (by omega)).1

/-- A call that leaves `init` alone leaves the time of the last advance alone. -/
theorem step_no_advance (T : Transport) (s : Sensor) (c : Call)
    (h : (step T s c).data.init = s.data.init) : (step T s c).last_init = s.last_init := by
  cases c with
  | update => exact update_last_init T s
  | loop now =>
    simp only [step] at h ⊢
    by_cases hg : s.data.init = 0 ∨ now ≤ s.last_init + 1000
    · rw [loop_closed T now s hg]
    · have := (loop_open T now s (fun h => hg (Or.inl h)) (by omega)).1
      omega

theorem run_init_le (T : Transport) (calls : List Call) :
    ∀ s : Sensor, (run T calls s).data.init ≤ s.data.init := by
  induction calls with
  | nil => intro s; exact le_refl _
  | cons c calls ih =>
    intro s
    rw [run_cons]
    have h1 := ih (step T s c)
    rcases step_init T s c with h | h <;> omega

theorem run_no_advance (T : Transport) (calls : List Call) :
    ∀ s : Sensor, (run T calls s).data.init = s.data.init →
      (run T calls s).last_init = s.last_init := by
  induction calls with
  | nil => intro s _; rfl
  | cons c calls ih =>
    intro s h
    rw [run_cons] at h ⊢
    have h1 := run_init_le T calls (step T s c)
    have h2 : (step T s c).data.init = s.data.init := by
      rcases step_init T s c with h3 | h3 <;> omega
    rw [ih (step T s c) (by omega), step_no_advance T s c h2]

theorem run_init_zero (T : Transport) (calls : List Call) (s : Sensor)
    (h : s.data.init = 0) : (run T calls s).data.init = 0 := by
  have := run_init_le T calls s
  omega

/-! ## The calibration block -/

theorem coefficientWords_succ (T : Transport) (n : Nat) (u : Uart) :
    coefficientWords T (n + 1) u =
      ((coefficientWords T n u).1 ++
          [(Cse7761Read T (CSE7761_REG_RMSIAC + n) 2 (coefficientWords T n u).2).1 % 65536],
        (Cse7761Read T (CSE7761_REG_RMSIAC + n) 2 (coefficientWords T n u).2).2) := by
  simp only [coefficientWords, List.range_succ, List.foldl_append, List.foldl_cons,
    List.foldl_nil]

theorem coefficientWords_length (T : Transport) (u : Uart) :
    ∀ n, (coefficientWords T n u).1.length = n := by
  intro n
  induction n with
  | zero => rfl
  | succ n ih => rw [coefficientWords_succ]; simp [ih]

theorem coefficientWords_lt (T : Transport) (u : Uart) :
    ∀ n, ∀ w ∈ (coefficientWords T n u).1, w < 65536 := by
  intro n
  induction n with
  | zero => intro w hw; simp [coefficientWords] at hw
  | succ n ih =>
    intro w hw
    rw [coefficientWords_succ] at hw
    simp only [List.mem_append, List.mem_singleton] at hw
    rcases hw with h | h
    · exact ih w h
    · rw [h]; exact Nat.mod_lt _ (by norm_num)

theorem foldl_checksum (words : List Nat) :
    ∀ acc, words.foldl (fun calc_chksum word => (calc_chksum + word) % 65536) acc % 65536 =
      (acc + words.sum) % 65536 := by
  induction words with
  | nil => intro acc; simp
  | cons w ws ih =>
    intro acc
    rw [List.foldl_cons, ih, List.sum_cons]
    omega

theorem foldl_checksum_lt (words : List Nat) :
    ∀ acc, acc < 65536 →
      words.foldl (fun calc_chksum word => (calc_chksum + word) % 65536) acc < 65536 := by
  induction words with
  | nil => intro acc h; exact h
  | cons w ws ih =>
    intro acc _
    rw [List.foldl_cons]
    exact ih _ (Nat.mod_lt _ (by norm_num))

/-- The checksum in closed form. -/
theorem calcChecksum_eq (words : List Nat) :
    calcChecksum words = 0xFFFF - (0xFFFF + words.sum) % 65536 := by
  have h1 := foldl_checksum words 0xFFFF
  have h2 := foldl_checksum_lt words 0xFFFF (by norm_num)
  rw [Nat.mod_eq_of_lt h2] at h1
  rw [calcChecksum, h1]

/-- The coefficient loop after its first `k` rounds. -/
theorem coefficientLoop_prefix (T : Transport) (c : List Nat) (u : Uart) :
    ∀ k, k ≤ c.length →
      (List.range k).foldl (coefficientStep T)
          { coefficient := c, calc_chksum := 0xFFFF, uart := u } =
        { coefficient := (coefficientWords T k u).1 ++ c.drop k,
          calc_chksum := (0xFFFF + (coefficientWords T k u).1.sum) % 65536,
          uart := (coefficientWords T k u).2 } := by
  intro k
  induction k with
  | zero => intro _; simp [coefficientWords]
  | succ k ih =>
    intro hk
    have hlen := coefficientWords_length T u k
    rw [List.range_succ, List.foldl_append, ih (by omega), coefficientWords_succ]
    simp only [List.foldl_cons, List.foldl_nil, coefficientStep, List.sum_append,
      List.sum_singleton]
    congr 1
    · rw [List.set_append_right _ _ (by omega), hlen, Nat.sub_self,
        List.drop_eq_getElem_cons (by omega : k < c.length)]
      simp only [List.set_cons_zero, List.append_assoc, List.singleton_append]
    · omega

/-- The coefficient loop stores the eight words read and accumulates their
checksum. -/
theorem readCoefficients_eq (T : Transport) (s : Sensor)
    (hlen : s.data.coefficient.length = 8) :
    readCoefficients T s =
      { coefficient := (coefficientWords T 8 s.uart).1,
        calc_chksum := (0xFFFF + (coefficientWords T 8 s.uart).1.sum) % 65536,
        uart := (coefficientWords T 8 s.uart).2 } := by
  rw [readCoefficients, coefficientLoop_prefix T _ _ 8 (by omega)]
  have : List.drop 8 s.data.coefficient = [] := by
    apply List.drop_of_length_le
    omega
  rw [this, List.append_nil]

/-- The coefficients left by `Cse7761ChipInit`. -/
theorem chipInit_coefficient (T : Transport) (s : Sensor)
    (hlen : s.data.coefficient.length = 8) :
    (Cse7761ChipInit T s).2.data.coefficient =
      if calcChecksum (coefficientWords T 8 s.uart).1 ≠
            (Cse7761Read T CSE7761_REG_COEFFCHKSUM 2 (coefficientWords T 8 s.uart).2).1
              % 65536 ∨
          calcChecksum (coefficientWords T 8 s.uart).1 = 0 then
        (((coefficientWords T 8 s.uart).1.set RmsIAC CSE7761_IREF).set RmsUC
          CSE7761_UREF).set PowerPAC CSE7761_PREF
      else (coefficientWords T 8 s.uart).1 := by
  have h : (Cse7761ChipInit T s).2.data.coefficient =
      (chipInitCalibrate T s).data.coefficient := by
    rw [chipInit_eq]
    split <;> rfl
  rw [h, calcChecksum_eq]
  simp only [chipInitCalibrate, readCoefficients_eq T s hlen]

theorem getD_set_self (l : List Nat) (i v : Nat) (h : i < l.length) :
    (l.set i v).getD i 0 = v := by
  simp [List.getD_eq_getElem?_getD, List.getElem?_set, h]

theorem getD_set_ne (l : List Nat) (i j v : Nat) (h : i ≠ j) :
    (l.set i v).getD j 0 = l.getD j 0 := by
  simp [List.getD_eq_getElem?_getD, List.getElem?_set, h]

/-! ## `Cse7761GetData` -/

theorem getVoltage_data (T : Transport) (s : Sensor) :
    (getVoltage T s).data.current_rms = s.data.current_rms ∧
      (getVoltage T s).data.active_power = s.data.active_power ∧
      (getVoltage T s).data.coefficient = s.data.coefficient ∧
      (getVoltage T s).data.voltage_rms =
        if (Cse7761ReadFallback T CSE7761_REG_RMSU s.data.voltage_rms 3 s.uart).1 ≥ 0x800000
        then 0
        else (Cse7761ReadFallback T CSE7761_REG_RMSU s.data.voltage_rms 3 s.uart).1 :=
  ⟨rfl, rfl, rfl, rfl⟩

theorem getChannel_current (T : Transport) (regI regP ch : Nat) (s : Sensor)
    (h : ch < s.data.current_rms.length) :
    (getChannel T regI regP ch s).data.current_rms.getD ch 0 =
      if (Cse7761ReadFallback T regI (s.data.current_rms.getD ch 0) 3 s.uart).1 ≥ 0x800000 ∨
          (Cse7761ReadFallback T regI (s.data.current_rms.getD ch 0) 3 s.uart).1 < 1600
      then 0
      else (Cse7761ReadFallback T regI (s.data.current_rms.getD ch 0) 3 s.uart).1 := by
  simp only [getChannel]
  rw [getD_set_self _ _ _ h]

theorem getChannel_power (T : Transport) (regI regP ch : Nat) (s : Sensor)
    (h : ch < s.data.active_power.length) :
    (getChannel T regI regP ch s).data.active_power.getD ch 0 =
      if 0 = (getChannel T regI regP ch s).data.current_rms.getD ch 0 then 0
      else powerMagnitude
        (Cse7761ReadFallback T regP (s.data.active_power.getD ch 0) 4
          (Cse7761ReadFallback T regI (s.data.current_rms.getD ch 0) 3 s.uart).2).1 := by
  simp only [getChannel]
  rw [getD_set_self _ _ _ h]

theorem getChannel_other (T : Transport) (regI regP ch j : Nat) (s : Sensor) (h : ch ≠ j) :
    (getChannel T regI regP ch s).data.current_rms.getD j 0 = s.data.current_rms.getD j 0 ∧
      (getChannel T regI regP ch s).data.active_power.getD j 0 =
        s.data.active_power.getD j 0 := by
  simp only [getChannel]
  exact ⟨getD_set_ne _ _ _ _ h, getD_set_ne _ _ _ _ h⟩

theorem getChannel_frame (T : Transport) (regI regP ch : Nat) (s : Sensor) :
    (getChannel T regI regP ch s).data.current_rms.length = s.data.current_rms.length ∧
      (getChannel T regI regP ch s).data.active_power.length = s.data.active_power.length ∧
      (getChannel T regI regP ch s).data.coefficient = s.data.coefficient ∧
      (getChannel T regI regP ch s).data.voltage_rms = s.data.voltage_rms := by
  simp only [getChannel, List.length_set, and_self]

/-- `Cse7761GetData` as its three acquisition steps followed by publishing. -/
theorem getData_steps (T : Transport) (s : Sensor) :
    (Cse7761GetData T s).data =
      (getChannel T CSE7761_REG_RMSIB CSE7761_REG_POWERPB 1
        (getChannel T CSE7761_REG_RMSIA CSE7761_REG_POWERPA 0 (getVoltage T s))).data :=
  rfl

theorem getData_coefficient (T : Transport) (s : Sensor) :
    (Cse7761GetData T s).data.coefficient = s.data.coefficient :=
  rfl

theorem update_coefficient (T : Transport) (s : Sensor) :
    (update T s).data.coefficient = s.data.coefficient := by
  unfold update
  split
  · rfl
  · rfl

/-- The sign test of `powerMagnitude` on a 32-bit word. -/
theorem and_sign_bit (v : Nat) (hv : v < 2 ^ 32) :
    v &&& 0x80000000 ≠ 0 ↔ 2 ^ 31 ≤ v := by
  have h := Nat.and_two_pow v 31
  have e31 : (2 : Nat) ^ 31 = 2147483648 := by norm_num
  have e32 : (2 : Nat) ^ 32 = 4294967296 := by norm_num
  rw [e31] at h ⊢
  rw [e32] at hv
  rw [h]
  by_cases hge : 2147483648 ≤ v
  · have ht : v.testBit 31 = true := by
      rw [Nat.testBit_to_div_mod, e31]
      have : v / 2147483648 = 1 := by omega
      simp [this]
    simp [ht, hge]
  · have ht : v.testBit 31 = false := by
      apply Nat.testBit_lt_two_pow
      omega
    simp [ht]
    omega

theorem powerMagnitude_eq (v : Nat) (hv : v < 2 ^ 32) :
    powerMagnitude v = if 2 ^ 31 ≤ v then 2 ^ 32 - v else v := by
  unfold powerMagnitude
  by_cases hge : 2 ^ 31 ≤ v
  · rw [if_pos ((and_sign_bit v hv).2 hge), if_pos hge]
    omega
  · rw [if_neg (fun h => hge ((and_sign_bit v hv).1 h)), if_neg hge]

theorem powerMagnitude_abs (v : Nat) (hv : v < 2 ^ 32) :
    powerMagnitude v = (signed32 v).natAbs := by
  rw [powerMagnitude_eq v hv]
  unfold signed32
  by_cases hge : 2 ^ 31 ≤ v
  · have hlt : ¬ v < 2 ^ 31 := by omega
    rw [if_pos hge, if_neg hlt]
    omega
  · have hlt : v < 2 ^ 31 := by omega
    rw [if_neg hge, if_pos hlt]
    omega

theorem powerMagnitude_neg (v : Nat) (hv : v < 2 ^ 32) :
    powerMagnitude ((2 ^ 32 - v) % 2 ^ 32) = powerMagnitude v := by
  rw [powerMagnitude_eq v hv, powerMagnitude_eq _ (Nat.mod_lt _ (by norm_num))]
  split <;> split <;> omega

theorem readFallback_lt (T : Transport) (reg prev size : Nat) (u : Uart)
    (h : prev < 256 ^ size) : (Cse7761ReadFallback T reg prev size u).1 < 256 ^ size := by
  simp only [Cse7761ReadFallback]
  split
  · exact h
  · exact read_lt T reg size u

/-- What `Cse7761GetData` stores, in terms of the five values it reads. -/
theorem getData_stored (T : Transport) (s : Sensor)
    (hc : s.data.current_rms.length = 2) (hp : s.data.active_power.length = 2) :
    let v := Cse7761ReadFallback T CSE7761_REG_RMSU s.data.voltage_rms 3 s.uart
    let s1 := getVoltage T s
    let i0 := Cse7761ReadFallback T CSE7761_REG_RMSIA (s1.data.current_rms.getD 0 0) 3 s1.uart
    let p0 := Cse7761ReadFallback T CSE7761_REG_POWERPA (s1.data.active_power.getD 0 0) 4 i0.2
    let s2 := getChannel T CSE7761_REG_RMSIA CSE7761_REG_POWERPA 0 s1
    let i1 := Cse7761ReadFallback T CSE7761_REG_RMSIB (s2.data.current_rms.getD 1 0) 3 s2.uart
    let p1 := Cse7761ReadFallback T CSE7761_REG_POWERPB (s2.data.active_power.getD 1 0) 4 i1.2
    let d := (Cse7761GetData T s).data
    d.voltage_rms = (if v.1 ≥ 0x800000 then 0 else v.1) ∧
      d.current_rms.getD 0 0 = (if i0.1 ≥ 0x800000 ∨ i0.1 < 1600 then 0 else i0.1) ∧
      d.active_power.getD 0 0 =
        (if 0 = d.current_rms.getD 0 0 then 0 else powerMagnitude p0.1) ∧
      d.current_rms.getD 1 0 = (if i1.1 ≥ 0x800000 ∨ i1.1 < 1600 then 0 else i1.1) ∧
      d.active_power.getD 1 0 =
        (if 0 = d.current_rms.getD 1 0 then 0 else powerMagnitude p1.1) ∧
      s1.data.active_power.getD 0 0 = s.data.active_power.getD 0 0 ∧
      s2.data.active_power.getD 1 0 = s.data.active_power.getD 1 0 := by
  intro v s1 i0 p0 s2 i1 p1 d
  have hs1 := getVoltage_data T s
  have hf2 := getChannel_frame T CSE7761_REG_RMSIA CSE7761_REG_POWERPA 0 s1
  have hf3 := getChannel_frame T CSE7761_REG_RMSIB CSE7761_REG_POWERPB 1 s2
  have hc1 : s1.data.current_rms.length = 2 := by rw [hs1.1]; exact hc
  have hp1 : s1.data.active_power.length = 2 := by rw [hs1.2.1]; exact hp
  have hc2 : s2.data.current_rms.length = 2 := by rw [hf2.1]; exact hc1
  have hp2 : s2.data.active_power.length = 2 := by rw [hf2.2.1]; exact hp1
  have ho := getChannel_other T CSE7761_REG_RMSIB CSE7761_REG_POWERPB 1 0 s2 (by decide)
  have ho2 := getChannel_other T CSE7761_REG_RMSIA CSE7761_REG_POWERPA 0 1 s1 (by decide)
  have hd : d = (getChannel T CSE7761_REG_RMSIB CSE7761_REG_POWERPB 1 s2).data := rfl
  have hcur0 := getChannel_current T CSE7761_REG_RMSIA CSE7761_REG_POWERPA 0 s1 (by omega)
  have hpow0 := getChannel_power T CSE7761_REG_RMSIA CSE7761_REG_POWERPA 0 s1 (by omega)
  have hcur1 := getChannel_current T CSE7761_REG_RMSIB CSE7761_REG_POWERPB 1 s2 (by omega)
  have hpow1 := getChannel_power T CSE7761_REG_RMSIB CSE7761_REG_POWERPB 1 s2 (by omega)
  refine ⟨?_, ?_, ?_, ?_, ?_, ?_, ?_⟩
  · rw [hd, hf3.2.2.2, hf2.2.2.2]
    exact hs1.2.2.2
  · rw [hd, ho.1]
    exact hcur0
  · rw [hd, ho.1, ho.2]
    exact hpow0
  · rw [hd]
    exact hcur1
  · rw [hd]
    exact hpow1
  · rw [hs1.2.1]
  · rw [ho2.2, hs1.2.1]

theorem run_coefficient (T : Transport) (calls : List Call) :
    ∀ s : Sensor, s.data.init = 0 → (run T calls s).data.coefficient = s.data.coefficient := by
  induction calls with
  | nil => intro s _; rfl
  | cons c calls ih =>
    intro s h
    rw [run_cons]
    cases c with
    | update =>
      rw [ih _ (by simp only [step]; rw [(update_data T s).1]; exact h)]
      exact update_coefficient T s
    | loop now =>
      simp only [step]
      rw [loop_closed T now s (Or.inl h)]
      exact ih s h

theorem getD_lt_of_forall (l : List Nat) (i b : Nat) (hi : i < l.length)
    (h : ∀ x ∈ l, x < b) : l.getD i 0 < b := by
  rw [List.getD_eq_getElem _ _ hi]
  exact h _ (List.getElem_mem _)

/-! ## Divisors -/

theorem coefficientWords_getD (T : Transport) (u : Uart) (i : Nat) :
    ∀ n, i < n →
      (coefficientWords T n u).1.getD i 0 =
        (Cse7761Read T (CSE7761_REG_RMSIAC + i) 2 (coefficientWords T i u).2).1 % 65536 := by
  intro n
  induction n with
  | zero => intro h; omega
  | succ n ih =>
    intro h
    rw [coefficientWords_succ]
    have hlen := coefficientWords_length T u n
    by_cases hin : i < n
    · rw [List.getD_append _ _ _ _ (by omega), ih hin]
    · have hi : i = n := by omega
      subst hi
      have := getD_append_length (coefficientWords T i u).1 []
        ((Cse7761Read T (CSE7761_REG_RMSIAC + i) 2 (coefficientWords T i u).2).1 % 65536)
      rw [hlen] at this
      exact this

/-- After `Cse7761ChipInit` the three divisor coefficients are non-zero when the
words read for them are. -/
theorem chipInit_nonzero (T : Transport) (s : Sensor)
    (hlen : s.data.coefficient.length = 8)
    (hwords : ∀ u, (Cse7761Read T 0x70 2 u).1 % 65536 ≠ 0 ∧
      (Cse7761Read T 0x72 2 u).1 % 65536 ≠ 0 ∧ (Cse7761Read T 0x73 2 u).1 % 65536 ≠ 0) :
    (Cse7761ChipInit T s).2.data.coefficient.length = 8 ∧
      (Cse7761ChipInit T s).2.data.coefficient.getD RmsIAC 0 ≠ 0 ∧
      (Cse7761ChipInit T s).2.data.coefficient.getD RmsUC 0 ≠ 0 ∧
      (Cse7761ChipInit T s).2.data.coefficient.getD PowerPAC 0 ≠ 0 := by
  have hw : (coefficientWords T 8 s.uart).1.length = 8 := coefficientWords_length T s.uart 8
  rw [chipInit_coefficient T s hlen]
  split
  · refine ⟨by simp [hw], ?_, ?_, ?_⟩
    · rw [getD_set_ne _ _ _ _ (by decide), getD_set_ne _ _ _ _ (by decide),
        getD_set_self _ _ _ (by rw [hw]; decide)]
      decide
    · rw [getD_set_ne _ _ _ _ (by decide),
        getD_set_self _ _ _ (by rw [List.length_set, hw]; decide)]
      decide
    · rw [getD_set_self _ _ _ (by rw [List.length_set, List.length_set, hw]; decide)]
      decide
  · refine ⟨hw, ?_, ?_, ?_⟩
    · rw [coefficientWords_getD T s.uart RmsIAC 8 (by decide)]
      exact (hwords _).1
    · rw [coefficientWords_getD T s.uart RmsUC 8 (by decide)]
      exact (hwords _).2.1
    · rw [coefficientWords_getD T s.uart PowerPAC 8 (by decide)]
      exact (hwords _).2.2

theorem chipInit_length (T : Transport) (s : Sensor)
    (hlen : s.data.coefficient.length = 8) :
    (Cse7761ChipInit T s).2.data.coefficient.length = 8 := by
  have hw : (coefficientWords T 8 s.uart).1.length = 8 := coefficientWords_length T s.uart 8
  rw [chipInit_coefficient T s hlen]
  split
  · simp [hw]
  · exact hw

/-- The state kept by the calls when the divisor words the chip delivers are
non-zero: a full coefficient array, the countdown relation, and non-zero
divisor coefficients once `ready` has left 0. -/
theorem step_divisors (T : Transport)
    (hwords : ∀ u, (Cse7761Read T 0x70 2 u).1 % 65536 ≠ 0 ∧
      (Cse7761Read T 0x72 2 u).1 % 65536 ≠ 0 ∧ (Cse7761Read T 0x73 2 u).1 % 65536 ≠ 0)
    (s : Sensor) (c : Call)
    (hlen : s.data.coefficient.length = 8) (hinv : InitReadyInv s.data)
    (hnz : s.data.ready ≠ 0 →
      s.data.coefficient.getD RmsIAC 0 ≠ 0 ∧ s.data.coefficient.getD RmsUC 0 ≠ 0 ∧
        s.data.coefficient.getD PowerPAC 0 ≠ 0) :
    (step T s c).data.coefficient.length = 8 ∧
      ((step T s c).data.ready ≠ 0 →
        (step T s c).data.coefficient.getD RmsIAC 0 ≠ 0 ∧
          (step T s c).data.coefficient.getD RmsUC 0 ≠ 0 ∧
          (step T s c).data.coefficient.getD PowerPAC 0 ≠ 0) := by
  cases c with
  | update =>
    simp only [step]
    rw [update_coefficient, (update_data T s).2]
    exact ⟨hlen, hnz⟩
  | loop now =>
    simp only [step]
    by_cases hg : s.data.init = 0 ∨ now ≤ s.last_init + 1000
    · rw [loop_closed T now s hg]; exact ⟨hlen, hnz⟩
    · have h0 : s.data.init ≠ 0 := fun h => hg (Or.inl h)
      have hgate : now > s.last_init + 1000 := by omega
      have hcases : s.data.init = 1 ∨ s.data.init = 2 ∨ s.data.init = 3 ∨
          4 ≤ s.data.init := by omega
      rcases hcases with h | h | h | h
      · rw [loop_finish T now s h hgate]
        simp only [loopFinish]
        split
        · rename_i hr
          exact ⟨hlen, fun _ => hnz (by omega)⟩
        · exact ⟨hlen, hnz⟩
      · rw [loop_identify T now s h hgate]
        have hr0 : s.data.ready = 0 := by
          obtain ⟨_, hr | hr | hr⟩ := hinv <;> omega
        simp only [loopIdentify]
        split
        · split
          · have hc := chipInit_nonzero T
              { s with last_init := now, uart := (Cse7761Read T 0x00 2 s.uart).2 } hlen hwords
            exact ⟨hc.1, fun _ => hc.2⟩
          · refine ⟨chipInit_length T _ hlen, ?_⟩
            intro hr
            exact absurd ((chipInit_data T
              { s with last_init := now,
                       uart := (Cse7761Read T 0x00 2 s.uart).2 }).2.1.trans hr0) hr
        · exact ⟨hlen, fun hr => absurd hr0 hr⟩
      · rw [loop_reset T now s h hgate]
        exact ⟨hlen, hnz⟩
      · rw [loop_idle T now s h hgate]
        exact ⟨hlen, hnz⟩

theorem run_divisors (T : Transport)
    (hwords : ∀ u, (Cse7761Read T 0x70 2 u).1 % 65536 ≠ 0 ∧
      (Cse7761Read T 0x72 2 u).1 % 65536 ≠ 0 ∧ (Cse7761Read T 0x73 2 u).1 % 65536 ≠ 0)
    (calls : List Call) :
    ∀ s : Sensor, s.data.coefficient.length = 8 → InitReadyInv s.data →
      (s.data.ready ≠ 0 →
        s.data.coefficient.getD RmsIAC 0 ≠ 0 ∧ s.data.coefficient.getD RmsUC 0 ≠ 0 ∧
          s.data.coefficient.getD PowerPAC 0 ≠ 0) →
      ((run T calls s).data.ready ≠ 0 →
        (run T calls s).data.coefficient.getD RmsIAC 0 ≠ 0 ∧
          (run T calls s).data.coefficient.getD RmsUC 0 ≠ 0 ∧
          (run T calls s).data.coefficient.getD PowerPAC 0 ≠ 0) := by
  induction calls with
  | nil => intro s _ _ h; exact h
  | cons c calls ih =>
    intro s hlen hinv hnz
    rw [run_cons]
    obtain ⟨h1, h2⟩ := step_divisors T hwords s c hlen hinv hnz
    have hinv' : InitReadyInv (step T s c).data := by
      cases c with
      | loop now => exact loop_inv T now s hinv
      | update => exact update_inv T s hinv
    exact ih _ h1 hinv' h2

theorem ref_some (coefficient : List Nat) (unit : Nat)
    (h : coefficient.getD RmsIAC 0 ≠ 0 ∧ coefficient.getD RmsUC 0 ≠ 0 ∧
      coefficient.getD PowerPAC 0 ≠ 0) :
    Cse7761Ref coefficient unit ≠ none := by
  unfold Cse7761Ref
  split
  · rw [if_neg h.2.1]; simp
  · split
    · rw [if_neg h.1]; simp
    · split
      · rw [if_neg h.2.2]; simp
      · simp

/-- On `unitWordLine` every read of a divisor coefficient register returns 1. -/
theorem unitWordLine_words (u : Uart) :
    (Cse7761Read unitWordLine 0x70 2 u).1 % 65536 ≠ 0 ∧
      (Cse7761Read unitWordLine 0x72 2 u).1 % 65536 ≠ 0 ∧
      (Cse7761Read unitWordLine 0x73 2 u).1 % 65536 ≠ 0 := by
  have h70 : readOnceOutcome 0x70 2 (unitWordLine u.polled 0x70) = Except.ok 1 := by
    show readOnceOutcome 0x70 2 (responseFrame 0x70 [0x00, 0x01]) = _
    rfl
  have h72 : readOnceOutcome 0x72 2 (unitWordLine u.polled 0x72) = Except.ok 1 := by
    show readOnceOutcome 0x72 2 (responseFrame 0x72 [0x00, 0x01]) = _
    rfl
  have h73 : readOnceOutcome 0x73 2 (unitWordLine u.polled 0x73) = Except.ok 1 := by
    show readOnceOutcome 0x73 2 (responseFrame 0x73 [0x00, 0x01]) = _
    rfl
  rw [read_success unitWordLine 0x70 2 1 u h70, read_success unitWordLine 0x72 2 1 u h72,
    read_success unitWordLine 0x73 2 1 u h73]
  simp

theorem calcChecksum_set_ne (c : List Nat) (i w : Nat) (hi : i < c.length)
    (hc : ∀ x ∈ c, x < 65536) (hw : w < 65536) (hne : w ≠ c.getD i 0) :
    calcChecksum (c.set i w) ≠ calcChecksum c := by
  have hsum := sum_set_add c i w hi
  have hx : c.getD i 0 < 65536 := by
    rw [List.getD_eq_getElem _ _ hi]
    exact hc _ (List.getElem_mem _)
  rw [calcChecksum_eq, calcChecksum_eq]
  omega

/-! ## Bounds of the receive loop and of the values read -/

theorem readOnceOutcome_no_overflow (reg size : Nat) (polls : List Int) (h : size ≤ 4) :
    readOnceOutcome reg size polls ≠ Except.error RxError.rxOverflow := by
  have hle := (receive_inv size polls).2.2.1
  have hlen := collected_length size polls
  rw [readOnceOutcome_eq]
  split
  · simp
  · split
    · omega
    · split <;> simp

theorem pow_256 (size : Nat) : 256 ^ size = 2 ^ (8 * size) := by
  rw [Nat.pow_mul]

/-! ## Invariants of the measurements and of the readiness flag -/

theorem chipInit_measurements (T : Transport) (s : Sensor) :
    (Cse7761ChipInit T s).2.data.voltage_rms = s.data.voltage_rms ∧
      (Cse7761ChipInit T s).2.data.current_rms = s.data.current_rms ∧
      (Cse7761ChipInit T s).2.data.active_power = s.data.active_power := by
  rw [chipInit_eq]
  split <;> exact ⟨rfl, rfl, rfl⟩

theorem loopIdentify_measurements (T : Transport) (s : Sensor) :
    (loopIdentify T s).data.voltage_rms = s.data.voltage_rms ∧
      (loopIdentify T s).data.current_rms = s.data.current_rms ∧
      (loopIdentify T s).data.active_power = s.data.active_power := by
  simp only [loopIdentify]
  split
  · split
    · exact chipInit_measurements T _
    · exact chipInit_measurements T _
  · exact ⟨rfl, rfl, rfl⟩

/-- `loop` never writes the stored measurements. -/
theorem loop_measurements (T : Transport) (now : Nat) (s : Sensor) :
    (loop T now s).data.voltage_rms = s.data.voltage_rms ∧
      (loop T now s).data.current_rms = s.data.current_rms ∧
      (loop T now s).data.active_power = s.data.active_power := by
  by_cases hg : s.data.init = 0 ∨ now ≤ s.last_init + 1000
  · rw [loop_closed T now s hg]; exact ⟨rfl, rfl, rfl⟩
  · have h0 : s.data.init ≠ 0 := fun h => hg (Or.inl h)
    have hgate : now > s.last_init + 1000 := by omega
    have hcases : s.data.init = 1 ∨ s.data.init = 2 ∨ s.data.init = 3 ∨
        4 ≤ s.data.init := by omega
    rcases hcases with h | h | h | h
    · rw [loop_finish T now s h hgate]
      simp only [loopFinish]
      split <;> exact ⟨rfl, rfl, rfl⟩
    · rw [loop_identify T now s h hgate]
      exact loopIdentify_measurements T { s with last_init := now }
    · rw [loop_reset T now s h hgate]
      exact ⟨rfl, rfl, rfl⟩
    · rw [loop_idle T now s h hgate]
      exact ⟨rfl, rfl, rfl⟩

theorem powerMagnitude_le (v : Nat) (hv : v < 2 ^ 32) : powerMagnitude v ≤ 0x80000000 := by
  rw [powerMagnitude_eq v hv]
  split <;> omega

theorem getData_lengths (T : Transport) (s : Sensor) :
    (Cse7761GetData T s).data.current_rms.length = s.data.current_rms.length ∧
      (Cse7761GetData T s).data.active_power.length = s.data.active_power.length := by
  rw [getData_steps]
  have h1 := getVoltage_data T s
  have h2 := getChannel_frame T CSE7761_REG_RMSIA CSE7761_REG_POWERPA 0 (getVoltage T s)
  have h3 := getChannel_frame T CSE7761_REG_RMSIB CSE7761_REG_POWERPB 1
    (getChannel T CSE7761_REG_RMSIA CSE7761_REG_POWERPA 0 (getVoltage T s))
  exact ⟨by rw [h3.1, h2.1, h1.1], by rw [h3.2.1, h2.2.1, h1.2.1]⟩

/-- One acquisition keeps the range relation. -/
theorem getData_measurementInv (T : Transport) (s : Sensor) (h : MeasurementInv s.data) :
    MeasurementInv (Cse7761GetData T s).data := by
  obtain ⟨hc, hp, _, _, _, hp0, hp1, _, _⟩ := h
  obtain ⟨hv, h0c, h0p, h1c, h1p, ha0, ha1⟩ := getData_stored T s hc hp
  obtain ⟨hl1, hl2⟩ := getData_lengths T s
  have e : (256 : Nat) ^ 4 = 2 ^ 32 := by norm_num
  have hb0 : ∀ u, (Cse7761ReadFallback T CSE7761_REG_POWERPA
      ((getVoltage T s).data.active_power.getD 0 0) 4 u).1 < 2 ^ 32 := by
    intro u
    rw [← e]
    apply readFallback_lt
    rw [e, ha0]
    omega
  have hb1 : ∀ u, (Cse7761ReadFallback T CSE7761_REG_POWERPB
      ((getChannel T CSE7761_REG_RMSIA CSE7761_REG_POWERPA 0
        (getVoltage T s)).data.active_power.getD 1 0) 4 u).1 < 2 ^ 32 := by
    intro u
    rw [← e]
    apply readFallback_lt
    rw [e, ha1]
    omega
  refine ⟨by rw [hl1]; exact hc, by rw [hl2]; exact hp, ?_, ?_, ?_, ?_, ?_, ?_, ?_⟩
  · rw [hv]
    split <;> omega
  · rw [h0c]
    split
    · exact Or.inl rfl
    · right; omega
  · rw [h1c]
    split
    · exact Or.inl rfl
    · right; omega
  · rw [h0p]
    split
    · omega
    · exact powerMagnitude_le _ (hb0 _)
  · rw [h1p]
    split
    · omega
    · exact powerMagnitude_le _ (hb1 _)
  · intro hz
    rw [h0p, if_pos hz.symm]
  · intro hz
    rw [h1p, if_pos hz.symm]

theorem step_measurementInv (T : Transport) (s : Sensor) (c : Call)
    (h : MeasurementInv s.data) : MeasurementInv (step T s c).data := by
  cases c with
  | loop now =>
    obtain ⟨h1, h2, h3⟩ := loop_measurements T now s
    simp only [step, MeasurementInv]
    rw [h1, h2, h3]
    exact h
  | update =>
    simp only [step, update]
    split
    · exact getData_measurementInv T s h
    · exact h

theorem run_measurementInv (T : Transport) (calls : List Call) :
    ∀ s : Sensor, MeasurementInv s.data → MeasurementInv (run T calls s).data := by
  induction calls with
  | nil => intro s h; exact h
  | cons c calls ih =>
    intro s h
    rw [run_cons]
    exact ih _ (step_measurementInv T s c h)

theorem boot_measurementInv (sinks : Sinks) : MeasurementInv (Sensor.boot sinks).data := by
  refine ⟨rfl, rfl, ?_, Or.inl rfl, Or.inl rfl, ?_, ?_, fun _ => rfl, fun _ => rfl⟩
  · show 0 < 0x800000
    norm_num
  · show 0 ≤ 0x80000000
    norm_num
  · show 0 ≤ 0x80000000
    norm_num

/-- With `init == 0` no call changes `ready`. -/
theorem run_ready (T : Transport) (calls : List Call) :
    ∀ s : Sensor, s.data.init = 0 → (run T calls s).data.ready = s.data.ready := by
  induction calls with
  | nil => intro s _; rfl
  | cons c calls ih =>
    intro s h
    rw [run_cons]
    cases c with
    | update =>
      rw [ih _ (by simp only [step]; rw [(update_data T s).1]; exact h)]
      exact (update_data T s).2
    | loop now =>
      simp only [step]
      rw [loop_closed T now s (Or.inl h)]
      exact ih s h

theorem getD_of_all_zero (l : List Nat) (i : Nat) (h : ∀ w ∈ l, w = 0) : l.getD i 0 = 0 := by
  by_cases hi : i < l.length
  · rw [List.getD_eq_getElem _ _ hi]
    exact h _ (List.getElem_mem _)
  · rw [List.getD_eq_default _ _ (by omega)]

theorem sum_of_all_zero (l : List Nat) (h : ∀ w ∈ l, w = 0) : l.sum = 0 := by
  induction l with
  | nil => rfl
  | cons x xs ih =>
    rw [List.sum_cons, h x (by simp), ih (fun w hw => h w (by simp [hw]))]

theorem calcChecksum_add_sum (words : List Nat) :
    (calcChecksum words + words.sum) % 65536 = 0 := by
  rw [calcChecksum_eq]
  omega

/-- A sufficient condition for non-zero divisors: when every read of the
coefficient registers 0x70 (`RmsIAC`), 0x72 (`RmsUC`) and 0x73 (`PowerPAC`)
returns a non-zero word, then in every state reached from boot with
`ready == 2` the three divisor coefficients are non-zero and none of the three
divisions in `Cse7761Ref` divides by zero. -/
theorem divisors_nonzero_of_words (T : Transport) (sinks : Sinks) (calls : List Call)
    (hwords : ∀ u, (Cse7761Read T 0x70 2 u).1 % 65536 ≠ 0 ∧
      (Cse7761Read T 0x72 2 u).1 % 65536 ≠ 0 ∧ (Cse7761Read T 0x73 2 u).1 % 65536 ≠ 0)
    (hready : (run T calls (Sensor.boot sinks)).data.ready = 2) :
    (run T calls (Sensor.boot sinks)).data.coefficient.getD RmsUC 0 ≠ 0 ∧
      (run T calls (Sensor.boot sinks)).data.coefficient.getD RmsIAC 0 ≠ 0 ∧
      (run T calls (Sensor.boot sinks)).data.coefficient.getD PowerPAC 0 ≠ 0 ∧
      Cse7761Ref (run T calls (Sensor.boot sinks)).data.coefficient RmsUC ≠ none ∧
      Cse7761Ref (run T calls (Sensor.boot sinks)).data.coefficient RmsIAC ≠ none ∧
      Cse7761Ref (run T calls (Sensor.boot sinks)).data.coefficient PowerPAC ≠ none := by
  have h := run_divisors T hwords calls (Sensor.boot sinks) rfl (boot_inv sinks)
    (fun hr => absurd rfl hr) (by rw [hready]; decide)
  exact ⟨h.2.1, h.1, h.2.2, ref_some _ _ h, ref_some _ _ h, ref_some _ _ h⟩

theorem divisors_nonzero_unitWordLine :
    (run unitWordLine
        [Call.loop 1001, Call.loop 2002, Call.loop 3003, Call.loop 4004, Call.update]
        (Sensor.boot {})).data.coefficient.getD RmsUC 0 ≠ 0 ∧
      Cse7761Ref
          (run unitWordLine
            [Call.loop 1001, Call.loop 2002, Call.loop 3003, Call.loop 4004, Call.update]
            (Sensor.boot {})).data.coefficient RmsUC ≠ none :=
  have h := divisors_nonzero_of_words unitWordLine {}
    [Call.loop 1001, Call.loop 2002, Call.loop 3003, Call.loop 4004, Call.update]
    unitWordLine_words (by decide)
  ⟨h.1, h.2.2.2.1⟩

/-! ## Claims -/

/-- C1: a response frame made of 1 to 4 value bytes followed by the checksum
byte `~(0xA5 + register + sum of the value bytes) mod 256` is accepted by the
parsing step of `Cse7761ReadOnce`, which returns the big-endian value of the
value bytes (whatever lies in the buffer behind the frame). -/
theorem C1_response_round_trip (reg : Nat) (bytes rest : List Nat)
    (hlen1 : 1 ≤ bytes.length) (hlen4 : bytes.length ≤ 4)
    (hbytes : ∀ b ∈ bytes, b < 256) :
    parseResponse reg (bytes ++ responseChecksum reg bytes :: rest) (bytes.length + 1) =
        Except.ok (bigEndian bytes) ∧
      checkAndParse reg
          { buffer := bytes ++ responseChecksum reg bytes :: rest,
            rcvd := bytes.length + 1 } =
        Except.ok (bigEndian bytes) := by
  have h := parseResponse_frame reg bytes rest (responseChecksum reg bytes) hlen4 hbytes
  simp only [ne_eq, not_true_eq_false, if_false] at h
  refine ⟨h, ?_⟩
  have h5 : ¬ bytes.length + 1 > 5 := by omega
  simp only [checkAndParse, Nat.add_one_ne_zero, if_false, h5, h]

theorem C1_response_round_trip_witness :
    parseResponse 0x00 ([0x0A, 0x04] ++ responseChecksum 0x00 [0x0A, 0x04] :: [0, 0, 0, 0, 0])
          ([0x0A, 0x04].length + 1) =
        Except.ok (bigEndian [0x0A, 0x04]) ∧
      checkAndParse 0x00
          { buffer := [0x0A, 0x04] ++ responseChecksum 0x00 [0x0A, 0x04] :: [0, 0, 0, 0, 0],
            rcvd := [0x0A, 0x04].length + 1 } =
        Except.ok (bigEndian [0x0A, 0x04]) :=
  C1_response_round_trip 0x00 [0x0A, 0x04] [0, 0, 0, 0, 0] (by decide) (by decide) (by decide)

/-- C2: in a correctly checksummed response frame with 1 to 4 value bytes,
replacing the byte at any position `i` (a value byte or the trailing checksum
byte) by a different byte `b` makes the parsing step of `Cse7761ReadOnce` fail
with a checksum mismatch. -/
theorem C2_single_byte_corruption (reg : Nat) (bytes rest : List Nat) (i b : Nat)
    (_hlen1 : 1 ≤ bytes.length) (hlen4 : bytes.length ≤ 4)
    (hbytes : ∀ x ∈ bytes, x < 256)
    (hi : i < (bytes ++ [responseChecksum reg bytes]).length) (hb : b < 256)
    (hne : (bytes ++ [responseChecksum reg bytes]).getD i 0 ≠ b) :
    parseResponse reg ((bytes ++ [responseChecksum reg bytes]).set i b ++ rest)
        (bytes.length + 1) =
      Except.error RxError.checksumMismatch := by
  simp only [List.length_append, List.length_singleton] at hi
  by_cases hlt : i < bytes.length
  · have hset : (bytes ++ [responseChecksum reg bytes]).set i b ++ rest =
        bytes.set i b ++ responseChecksum reg bytes :: rest := by
      rw [List.set_append_left i b hlt]
      simp
    have hget : (bytes ++ [responseChecksum reg bytes]).getD i 0 = bytes.getD i 0 :=
      List.getD_append _ _ _ _ hlt
    have hx : bytes.getD i 0 < 256 := by
      rw [List.getD_eq_getElem _ _ hlt]
      exact hbytes _ (List.getElem_mem _)
    have hsum := sum_set_add bytes i b hlt
    have hbytes2 : ∀ x ∈ bytes.set i b, x < 256 := by
      intro x hxm
      rcases List.mem_or_eq_of_mem_set hxm with h1 | h1
      · exact hbytes x h1
      · rw [h1]; exact hb
    have h := parseResponse_frame reg (bytes.set i b) rest (responseChecksum reg bytes)
      (by simpa using hlen4) hbytes2
    rw [List.length_set] at h
    rw [hset, h, if_pos]
    rw [hget] at hne
    simp only [responseChecksum, ne_eq]
    omega
  · have hieq : i = bytes.length := by omega
    subst hieq
    have hset : (bytes ++ [responseChecksum reg bytes]).set bytes.length b ++ rest =
        bytes ++ b :: rest := by
      rw [List.set_append_right _ _ (le_refl _)]
      simp
    have hget : (bytes ++ [responseChecksum reg bytes]).getD bytes.length 0 =
        responseChecksum reg bytes := by
      simp
    rw [hget] at hne
    rw [hset, parseResponse_frame reg bytes rest b hlen4 hbytes, if_pos hne]

theorem C2_single_byte_corruption_witness :
    parseResponse 0x00
        (([0x0A, 0x04] ++ [responseChecksum 0x00 [0x0A, 0x04]]).set 1 0x05 ++ [0, 0, 0, 0, 0])
        ([0x0A, 0x04].length + 1) =
      Except.error RxError.checksumMismatch :=
  C2_single_byte_corruption 0x00 [0x0A, 0x04] [0, 0, 0, 0, 0] 1 0x05 (by decide) (by decide)
    (by decide) (by decide) (by decide) (by decide)

/-- C3: for non-zero `data` the frame built by `Cse7761Write` ends with the
complement of the 8-bit sum of all preceding bytes, so that all its bytes sum
to 0xFF modulo 256; this frame is what goes out on the line; and
`Cse7761Write(0x01, 0x1183)` emits `A5 01 11 83` followed by
`~(0xA5 + 0x01 + 0x11 + 0x83) & 0xFF`. -/
theorem C3_write_checksum (reg data : Nat) (hdata : data ≠ 0) :
    (Cse7761WriteBuffer reg data).getLast? =
        some (255 - (Cse7761WriteBuffer reg data).dropLast.sum % 256) ∧
      (Cse7761WriteBuffer reg data).sum % 256 = 0xFF ∧
      (∀ u, (Cse7761Write reg data u).tx = u.tx ++ [Cse7761WriteBuffer reg data]) ∧
      Cse7761WriteBuffer 0x01 0x1183 =
        [0xA5, 0x01, 0x11, 0x83, 255 - (0xA5 + 0x01 + 0x11 + 0x83) % 256] := by
  refine ⟨?_, ?_, fun u => rfl, by decide⟩
  · unfold Cse7761WriteBuffer
    by_cases h : data < 0xFF
    · simp [hdata, h, and_255, List.dropLast]
      omega
    · simp [hdata, h, and_255, shiftRight_8, List.dropLast]
      omega
  · unfold Cse7761WriteBuffer
    by_cases h : data < 0xFF
    · simp [hdata, h, and_255]
      omega
    · simp [hdata, h, and_255, shiftRight_8]
      omega

theorem C3_write_checksum_witness :
    (Cse7761WriteBuffer 0xEA 0x96).getLast? =
        some (255 - (Cse7761WriteBuffer 0xEA 0x96).dropLast.sum % 256) ∧
      (Cse7761WriteBuffer 0xEA 0x96).sum % 256 = 0xFF ∧
      (∀ u, (Cse7761Write 0xEA 0x96 u).tx = u.tx ++ [Cse7761WriteBuffer 0xEA 0x96]) ∧
      Cse7761WriteBuffer 0x01 0x1183 =
        [0xA5, 0x01, 0x11, 0x83, 255 - (0xA5 + 0x01 + 0x11 + 0x83) % 256] :=
  C3_write_checksum 0xEA 0x96 (by decide)

/-- C4: with `data == 0`, `Cse7761Write` emits exactly the two bytes
`[0xA5, register]` (the register as stored in a byte) and no checksum byte;
register 0x00 gives `[0xA5, 0x00]`. -/
theorem C4_read_request (reg : Nat) :
    Cse7761WriteBuffer reg 0 = [0xA5, reg % 256] ∧
      (reg < 256 → Cse7761WriteBuffer reg 0 = [0xA5, reg]) ∧
      (∀ u, (Cse7761Write reg 0 u).tx = u.tx ++ [[0xA5, reg % 256]]) ∧
      Cse7761WriteBuffer 0x00 0 = [0xA5, 0x00] :=
  ⟨rfl, fun h => by rw [← Nat.mod_eq_of_lt h]; simp [Cse7761WriteBuffer], fun _ => rfl, rfl⟩

/-- C5: payload of `Cse7761Write`: one data byte equal to `data` when
`0 < data < 0xFF` (frame of 4 bytes); the two bytes `(data >> 8) & 0xFF`,
`data & 0xFF` when `data >= 0xFF` (frame of 5 bytes); hence for
`0 < data <= 0xFFFF` the bytes between the register byte and the checksum,
read big-endian, equal `data`. -/
theorem C5_write_payload (reg data : Nat) :
    (0 < data → data < 0xFF →
        ∃ crc, Cse7761WriteBuffer reg data = [0xA5, reg % 256, data, crc]) ∧
      (0xFF ≤ data →
        ∃ crc, Cse7761WriteBuffer reg data =
          [0xA5, reg % 256, (data >>> 8) &&& 0xFF, data &&& 0xFF, crc]) ∧
      (0 < data → data ≤ 0xFFFF →
        bigEndian (((Cse7761WriteBuffer reg data).drop 2).dropLast) = data) := by
  refine ⟨?_, ?_, ?_⟩
  · intro h0 h1
    have hd : data ≠ 0 := by omega
    have hm : data % 256 = data := by omega
    refine ⟨255 - (165 + reg + data) % 256, ?_⟩
    simp [Cse7761WriteBuffer, hd, h1, and_255, hm]
  · intro h1
    have hd : data ≠ 0 := by omega
    have h2 : ¬ data < 0xFF := by omega
    refine ⟨255 - (165 + reg + (data >>> 8 &&& 255) + (data &&& 255)) % 256, ?_⟩
    simp [Cse7761WriteBuffer, hd, h2]
  · intro h0 h1
    have hd : data ≠ 0 := by omega
    by_cases h : data < 0xFF
    · simp [Cse7761WriteBuffer, hd, h, and_255, bigEndian, List.dropLast]
      omega
    · simp [Cse7761WriteBuffer, hd, h, and_255, shiftRight_8, bigEndian, List.dropLast]
      omega

theorem C5_write_payload_witness :
    (∃ crc, Cse7761WriteBuffer 0xEA 0x96 = [0xA5, 0xEA % 256, 0x96, crc]) ∧
      (∃ crc, Cse7761WriteBuffer 0x81 0x1183 =
        [0xA5, 0x81 % 256, (0x1183 >>> 8) &&& 0xFF, 0x1183 &&& 0xFF, crc]) ∧
      bigEndian (((Cse7761WriteBuffer 0x81 0x1183).drop 2).dropLast) = 0x1183 :=
  ⟨(C5_write_payload 0xEA 0x96).1 (by decide) (by decide),
    (C5_write_payload 0x81 0x1183).2.1 (by decide),
    (C5_write_payload 0x81 0x1183).2.2 (by decide) (by decide)⟩

/-- C6: `Cse7761ReadOnce` on the poll results `T u.polled reg` of its receive
window: it fails when no byte was collected and when more than 5 were; with 1
to 5 collected bytes it succeeds exactly when the last one is the checksum of
the others; on success it stores the big-endian value of all collected bytes
but the last; on failure the caller's `value` is unchanged. -/
theorem C6_read_once (T : Transport) (reg size value : Nat) (u : Uart) :
    ((collected size (T u.polled reg)).length = 0 →
        (Cse7761ReadOnce T reg size value u).1 = false) ∧
      (5 < (collected size (T u.polled reg)).length →
        (Cse7761ReadOnce T reg size value u).1 = false) ∧
      (1 ≤ (collected size (T u.polled reg)).length →
        (collected size (T u.polled reg)).length ≤ 5 →
        ((Cse7761ReadOnce T reg size value u).1 = true ↔
          (collected size (T u.polled reg)).getLast? =
            some (responseChecksum reg (collected size (T u.polled reg)).dropLast))) ∧
      ((Cse7761ReadOnce T reg size value u).1 = true →
        (Cse7761ReadOnce T reg size value u).2.1 =
          bigEndian (collected size (T u.polled reg)).dropLast) ∧
      ((Cse7761ReadOnce T reg size value u).1 = false →
        (Cse7761ReadOnce T reg size value u).2.1 = value) := by
  have h := readOnce_result T reg size value u
  rw [readOnceOutcome_eq] at h
  generalize collected size (T u.polled reg) = c at h ⊢
  generalize Cse7761ReadOnce T reg size value u = r at h ⊢
  obtain ⟨r1, r2, r3⟩ := r
  simp only at h ⊢
  by_cases h0 : c.length = 0
  · simp only [h0, if_true, Prod.mk.injEq] at h
    simp [h.1, h.2, h0]
  · by_cases h5 : c.length > 5
    · simp only [h0, h5, if_true, if_false, Prod.mk.injEq] at h
      simp [h.1, h.2]
      omega
    · by_cases hck : c.getLast? = some (responseChecksum reg c.dropLast)
      · simp only [h0, h5, hck, ne_eq, not_true_eq_false, if_false, Prod.mk.injEq] at h
        simp [h.1, h.2, hck, h0]
        omega
      · simp only [h0, h5, hck, ne_eq, not_false_eq_true, if_true, if_false,
          Prod.mk.injEq] at h
        simp [h.1, h.2, hck, h0]

/-- C7: `Cse7761Read` in terms of its attempts `a1`, `a2`, `a3` (each started
from the value and line left by the one before): it stops at the first
successful attempt and returns its value, having opened exactly that many
receive windows and sent that many read requests; when all three fail it
returns 0; it never makes more than 3 attempts. -/
theorem C7_read_retries (T : Transport) (reg size : Nat) (u : Uart) :
    let a1 := Cse7761ReadOnce T reg size 0 u
    let a2 := Cse7761ReadOnce T reg size a1.2.1 a1.2.2
    let a3 := Cse7761ReadOnce T reg size a2.2.1 a2.2.2
    let r := Cse7761Read T reg size u
    (a1.1 = true → r = a1.2 ∧ r.2.polled = u.polled + 1) ∧
      (a1.1 = false → a2.1 = true → r = a2.2 ∧ r.2.polled = u.polled + 2) ∧
      (a1.1 = false → a2.1 = false → a3.1 = true →
        r = a3.2 ∧ r.2.polled = u.polled + 3) ∧
      (a1.1 = false → a2.1 = false → a3.1 = false →
        r.1 = 0 ∧ r.2.polled = u.polled + 3) ∧
      r.2.polled ≤ u.polled + 3 ∧
      r.2.tx = u.tx ++ List.replicate (r.2.polled - u.polled) [0xA5, reg % 256] := by
  intro a1 a2 a3 r
  have hr : r = if a1.1 then a1.2 else if a2.1 then a2.2 else a3.2 := read_eq T reg size u
  have h1 : a1.2.2 = { tx := u.tx ++ [[0xA5, reg % 256]], polled := u.polled + 1 } :=
    readOnce_uart T reg size 0 u
  have h2 : a2.2.2 = { tx := a1.2.2.tx ++ [[0xA5, reg % 256]], polled := a1.2.2.polled + 1 } :=
    readOnce_uart T reg size a1.2.1 a1.2.2
  have h3 : a3.2.2 = { tx := a2.2.2.tx ++ [[0xA5, reg % 256]], polled := a2.2.2.polled + 1 } :=
    readOnce_uart T reg size a2.2.1 a2.2.2
  have f1 : a1.1 = false → a1.2.1 = 0 := readOnce_fail_value T reg size 0 u
  have f2 : a2.1 = false → a2.2.1 = a1.2.1 := readOnce_fail_value T reg size a1.2.1 a1.2.2
  have f3 : a3.1 = false → a3.2.1 = a2.2.1 := readOnce_fail_value T reg size a2.2.1 a2.2.2
  rw [h1] at h2
  rw [h2] at h3
  simp only at h2 h3
  have e3 : u.polled + 1 + 1 + 1 - u.polled = 3 := by omega
  have e2 : u.polled + 1 + 1 - u.polled = 2 := by omega
  clear_value a1 a2 a3 r
  subst hr
  cases hb1 : a1.1
  · cases hb2 : a2.1
    · simp only [hb1, hb2] at f1 f2 f3
      cases hb3 : a3.1
      · simp [h3, f1, f2, f3 hb3, List.replicate, e3]
      · simp [h3, List.replicate, e3]
    · simp [h2, List.replicate, e2]
  · simp [h1, List.replicate]

/-- C8: `Cse7761ReadFallback(reg, prev, size)` returns `prev` when all three
attempts fail; it returns `prev` when `Cse7761Read` returns 0 and the value read
otherwise (so the result is `prev` exactly when the read returned 0 or `prev`
itself), leaving the line as `Cse7761Read` leaves it; and `Cse7761Read`
returns 0 exactly when all attempts failed or the first successful attempt
decoded the value 0. -/
theorem C8_read_fallback (T : Transport) (reg prev size : Nat) (u : Uart) :
    let a1 := Cse7761ReadOnce T reg size 0 u
    let a2 := Cse7761ReadOnce T reg size a1.2.1 a1.2.2
    let a3 := Cse7761ReadOnce T reg size a2.2.1 a2.2.2
    let r := Cse7761Read T reg size u
    let f := Cse7761ReadFallback T reg prev size u
    (a1.1 = false → a2.1 = false → a3.1 = false → f.1 = prev) ∧
      (r.1 = 0 → f.1 = prev) ∧
      (r.1 ≠ 0 → f.1 = r.1) ∧
      (f.1 = prev ↔ r.1 = 0 ∨ r.1 = prev) ∧
      f.2 = r.2 ∧
      (r.1 = 0 ↔
        (a1.1 = false ∧ a2.1 = false ∧ a3.1 = false) ∨
          (a1.1 = true ∧ a1.2.1 = 0) ∨
          (a1.1 = false ∧ a2.1 = true ∧ a2.2.1 = 0) ∨
          (a1.1 = false ∧ a2.1 = false ∧ a3.1 = true ∧ a3.2.1 = 0)) := by
  intro a1 a2 a3 r f
  have hr : r = if a1.1 then a1.2 else if a2.1 then a2.2 else a3.2 := read_eq T reg size u
  have hf : f = if r.1 = 0 then (prev, r.2) else (r.1, r.2) := rfl
  have f1 : a1.1 = false → a1.2.1 = 0 := readOnce_fail_value T reg size 0 u
  have f2 : a2.1 = false → a2.2.1 = a1.2.1 := readOnce_fail_value T reg size a1.2.1 a1.2.2
  have f3 : a3.1 = false → a3.2.1 = a2.2.1 := readOnce_fail_value T reg size a2.2.1 a2.2.2
  clear_value a1 a2 a3 r f
  have hiff : r.1 = 0 ↔
      (a1.1 = false ∧ a2.1 = false ∧ a3.1 = false) ∨
        (a1.1 = true ∧ a1.2.1 = 0) ∨
        (a1.1 = false ∧ a2.1 = true ∧ a2.2.1 = 0) ∨
        (a1.1 = false ∧ a2.1 = false ∧ a3.1 = true ∧ a3.2.1 = 0) := by
    subst hr
    cases hb1 : a1.1
    · cases hb2 : a2.1
      · cases hb3 : a3.1
        · simp [f1 hb1, f2 hb2, f3 hb3]
        · simp
      · simp
    · simp
  refine ⟨?_, ?_, ?_, ?_, ?_, hiff⟩
  · intro h1 h2 h3
    have h0 : r.1 = 0 := hiff.2 (Or.inl ⟨h1, h2, h3⟩)
    simp [hf, h0]
  · intro h0
    simp [hf, h0]
  · intro h0
    simp [hf, h0]
  · rw [hf]
    by_cases h0 : r.1 = 0
    · simp [h0]
    · simp [h0]
  · rw [hf]
    split <;> rfl

/-- C9: on a line where every read attempt of the system control register
(0x00) decodes 0x0A04 and every read attempt of the system status register
(0x43) decodes a value with bit 0x10 set, four advancing `loop` ticks from boot
end with `init == 0` and `ready == 2`; the third tick runs in state 2 and the
frames it writes end with the writes of 0xFF04 to 0x80, 0x1183 to 0x81, 0x0FC1
to 0x93 and 0x3290 to 0x9D, in this order; these register bytes are the
configuration registers with the high bit set. -/
theorem C9_end_to_end_init (T : Transport) (sinks : Sinks) (t1 t2 t3 t4 : Nat)
    (hsyscon : ∀ n, readOnceOutcome 0x00 2 (T n 0x00) = Except.ok 0x0A04)
    (hstatus : ∀ n, ∃ v, readOnceOutcome 0x43 1 (T n 0x43) = Except.ok v ∧ v &&& 0x10 ≠ 0)
    (h1 : t1 > 1000) (h2 : t2 > t1 + 1000) (h3 : t3 > t2 + 1000) (h4 : t4 > t3 + 1000) :
    (run T [Call.loop t1, Call.loop t2, Call.loop t3, Call.loop t4]
        (Sensor.boot sinks)).data.init = 0 ∧
      (run T [Call.loop t1, Call.loop t2, Call.loop t3, Call.loop t4]
        (Sensor.boot sinks)).data.ready = 2 ∧
      (run T [Call.loop t1, Call.loop t2] (Sensor.boot sinks)).data.init = 2 ∧
      (∃ pre,
        (run T [Call.loop t1, Call.loop t2, Call.loop t3] (Sensor.boot sinks)).uart.tx =
          (run T [Call.loop t1, Call.loop t2] (Sensor.boot sinks)).uart.tx ++ pre ++
            [Cse7761WriteBuffer 0x80 0xFF04, Cse7761WriteBuffer 0x81 0x1183,
              Cse7761WriteBuffer 0x93 0x0FC1, Cse7761WriteBuffer 0x9D 0x3290]) ∧
      [Cse7761WriteBuffer 0x80 0xFF04, Cse7761WriteBuffer 0x81 0x1183,
          Cse7761WriteBuffer 0x93 0x0FC1, Cse7761WriteBuffer 0x9D 0x3290] =
        [[0xA5, 0x80, 0xFF, 0x04, 0xD7], [0xA5, 0x81, 0x11, 0x83, 0x45],
          [0xA5, 0x93, 0x0F, 0xC1, 0xF7], [0xA5, 0x9D, 0x32, 0x90, 0xFB]] ∧
      [0x80, 0x81, 0x93, 0x9D] =
        [CSE7761_REG_SYSCON ||| 0x80, CSE7761_REG_EMUCON ||| 0x80,
          CSE7761_REG_EMUCON2 ||| 0x80, CSE7761_REG_PULSE1SEL ||| 0x80] ∧
      (∀ f ∈ [Cse7761WriteBuffer 0x80 0xFF04, Cse7761WriteBuffer 0x81 0x1183,
          Cse7761WriteBuffer 0x93 0x0FC1, Cse7761WriteBuffer 0x9D 0x3290],
        f.getD 1 0 &&& 0x80 = 0x80) := by
  have hs1 := loop_wait T t1 (Sensor.boot sinks) rfl (by simpa [Sensor.boot] using h1)
  generalize hs1d : loop T t1 (Sensor.boot sinks) = s1 at hs1
  have hs2 := loop_reset T t2 s1 (by rw [hs1]) (by rw [hs1]; exact h2)
  generalize hs2d : loop T t2 s1 = s2 at hs2
  have hs2i : s2.data.init = 2 := by rw [hs2]
  have hs2l : s2.last_init = t2 := by rw [hs2]
  have hsys : (Cse7761Read T 0x00 2 s2.uart).1 = 0x0A04 := by
    rw [read_success T 0x00 2 0x0A04 s2.uart (hsyscon _)]
  have hs3 := loop_identify_success T t3 s2 hs2i (by rw [hs2l]; exact h3) hsys
    (status_bit_set T hstatus _)
  generalize hs3d : loop T t3 s2 = s3 at hs3
  obtain ⟨hs3i, hs3r, hs3l, hs3u⟩ := hs3
  have hs4 := loop_finish_ready T t4 s3 hs3i hs3r (by rw [hs3l]; exact h4)
  have hrun2 : run T [Call.loop t1, Call.loop t2] (Sensor.boot sinks) = s2 := by
    simp only [run, List.foldl, step, hs1d, hs2d]
  have hrun3 : run T [Call.loop t1, Call.loop t2, Call.loop t3] (Sensor.boot sinks) = s3 := by
    simp only [run, List.foldl, step, hs1d, hs2d, hs3d]
  have hrun4 : run T [Call.loop t1, Call.loop t2, Call.loop t3, Call.loop t4]
      (Sensor.boot sinks) = loop T t4 s3 := by
    simp only [run, List.foldl, step, hs1d, hs2d, hs3d]
  rw [hrun4, hrun3, hrun2]
  refine ⟨hs4.1, hs4.2.1, hs2i, ?_, by decide, by decide, by decide⟩
  obtain ⟨w1, hw1, _⟩ := read_appends T 0x00 2 s2.uart
  obtain ⟨w2, hw2, _⟩ := chipInitStatus_appends T
    { s2 with last_init := t3, uart := (Cse7761Read T 0x00 2 s2.uart).2 }
  refine ⟨w1 ++ w2, ?_⟩
  rw [hs3u, chipInitConfigure_tx, hw2]
  simp only [hw1, List.append_assoc]
  rfl

theorem C9_end_to_end_init_witness :
    (run answeringLine [Call.loop 1001, Call.loop 2002, Call.loop 3003, Call.loop 4004]
        (Sensor.boot {})).data.init = 0 ∧
      (run answeringLine [Call.loop 1001, Call.loop 2002, Call.loop 3003, Call.loop 4004]
        (Sensor.boot {})).data.ready = 2 :=
  have h := C9_end_to_end_init answeringLine {} 1001 2002 3003 4004
    (fun _ => by
      show readOnceOutcome 0x00 2 [0x0A, 0x04, 0x4C] = _
      rfl)
    (fun _ => ⟨0x10, by
      show readOnceOutcome 0x43 1 [0x10, 0x07] = _
      rfl, by decide⟩)
    (by decide) (by decide) (by decide) (by decide)
  ⟨h.1, h.2.1⟩

/-- C10: let `s` be a state reached from boot in which `init == 2`, and let an
advancing `loop` tick run there.  If the system control read returns anything
but 0x0A04, or the status byte read by `Cse7761ChipInit` has bit 0x10 clear,
then `ready` is 0 after the tick and after any later sequence of `loop` and
`update` calls.  When the status bit is clear, `Cse7761ChipInit` returns false
and everything it sent is a 2-byte read request or the enable-write command,
none of it one of the four configuration frames. -/
theorem C10_failed_init_never_ready (T : Transport) (sinks : Sinks)
    (before after : List Call) (now : Nat) (s : Sensor)
    (hreach : s = run T before (Sensor.boot sinks))
    (hinit : s.data.init = 2) (hgate : now > s.last_init + 1000)
    (hfail : (Cse7761Read T 0x00 2 s.uart).1 ≠ 0x0A04 ∨
      (chipInitStatus T
        { s with last_init := now, uart := (Cse7761Read T 0x00 2 s.uart).2 }).1 % 256
          &&& 0x10 = 0) :
    (loop T now s).data.ready = 0 ∧
      (run T after (loop T now s)).data.ready = 0 ∧
      ((chipInitStatus T
          { s with last_init := now, uart := (Cse7761Read T 0x00 2 s.uart).2 }).1 % 256
            &&& 0x10 = 0 →
        (Cse7761ChipInit T
            { s with last_init := now, uart := (Cse7761Read T 0x00 2 s.uart).2 }).1 = false ∧
          ∃ w,
            (Cse7761ChipInit T
                { s with last_init := now,
                         uart := (Cse7761Read T 0x00 2 s.uart).2 }).2.uart.tx =
              (Cse7761Read T 0x00 2 s.uart).2.tx ++ w ∧
            ∀ f ∈ w,
              (f.length = 2 ∨
                f = Cse7761WriteBuffer CSE7761_SPECIAL_COMMAND CSE7761_CMD_ENABLE_WRITE) ∧
              f ∉ configFrames) := by
  have hinv : InitReadyInv s.data := by
    rw [hreach]
    exact run_inv T before _ (boot_inv sinks)
  have hready : s.data.ready = 0 := by
    obtain ⟨_, h | h | h⟩ := hinv
    · exact h
    · omega
    · omega
  obtain ⟨hi, hr⟩ := loop_identify_failure T now s hinit hgate hfail
  rw [hready] at hr
  refine ⟨hr, (run_dead T after _ hr (by omega)).1, ?_⟩
  intro hst
  obtain ⟨hfalse, hu⟩ := chipInit_false T _ hst
  obtain ⟨w, hw, hw'⟩ := chipInitStatus_appends T
    { s with last_init := now, uart := (Cse7761Read T 0x00 2 s.uart).2 }
  refine ⟨hfalse, w, by rw [hu, hw], ?_⟩
  intro f hf
  refine ⟨hw' f hf, ?_⟩
  intro hmem
  have h5 : f.length = 5 := by
    simp only [configFrames, List.mem_cons, List.mem_singleton, List.not_mem_nil,
      or_false] at hmem
    rcases hmem with h | h | h | h <;> rw [h] <;> rfl
  rcases hw' f hf with h | h
  · omega
  · rw [h] at h5
    revert h5
    decide

theorem C10_failed_init_never_ready_witness :
    (run silentLine [Call.loop 4004, Call.update, Call.loop 9000]
        (loop silentLine 3003
          (run silentLine [Call.loop 1001, Call.update, Call.loop 2002]
            (Sensor.boot {})))).data.ready = 0 :=
  (C10_failed_init_never_ready silentLine {} [Call.loop 1001, Call.update, Call.loop 2002]
    [Call.loop 4004, Call.update, Call.loop 9000] 3003 _ rfl (by decide) (by decide)
    (Or.inl (by decide))).2.1

/-- C11: step rule of the countdown.  A `loop` call at time `t` with
`init == 0` or `t <= last_init + 1000` returns the state unchanged (so `init`,
`ready`, the coefficients and the transmit log are unchanged).  Every other
`loop` call lowers `init` by exactly 1 and stores `t` in `last_init`, whichever
branch runs.  Hence two consecutive advances are more than 1000 ms apart; every
call leaves `init` or lowers it by 1; from boot `init` starts at 4 and never
exceeds 4; and once `init` is 0 it stays 0. -/
theorem C11_loop_step_rule (T : Transport) (t : Nat) (s : Sensor) :
    ((s.data.init = 0 ∨ t ≤ s.last_init + 1000) → loop T t s = s) ∧
      (s.data.init ≠ 0 → t > s.last_init + 1000 →
        (loop T t s).data.init + 1 = s.data.init ∧ (loop T t s).last_init = t) ∧
      (∀ (mid : List Call) (t' : Nat), s.data.init ≠ 0 → t > s.last_init + 1000 →
        (run T mid (loop T t s)).data.init = (loop T t s).data.init →
        (loop T t' (run T mid (loop T t s))).data.init ≠
          (run T mid (loop T t s)).data.init →
        t' > t + 1000) ∧
      (∀ c : Call,
        (step T s c).data.init = s.data.init ∨ (step T s c).data.init + 1 = s.data.init) ∧
      (∀ (sinks : Sinks) (calls : List Call),
        (Sensor.boot sinks).data.init = 4 ∧
          (run T calls (Sensor.boot sinks)).data.init ≤ 4) ∧
      (s.data.init = 0 → ∀ calls : List Call, (run T calls s).data.init = 0) := by
  refine ⟨loop_closed T t s, loop_open T t s, ?_, step_init T s, ?_, ?_⟩
  · intro mid t' h0 hgate hmid hadv
    have hl := (loop_open T t s h0 hgate).2
    have hm := run_no_advance T mid (loop T t s) hmid
    by_contra hc
    apply hadv
    rw [loop_closed T t' _ (Or.inr (by rw [hm, hl]; omega))]
  · intro sinks calls
    exact ⟨rfl, run_init_le T calls (Sensor.boot sinks)⟩
  · intro h calls
    exact run_init_zero T calls s h

theorem C11_loop_step_rule_witness :
    (loop silentLine 1001 (Sensor.boot {})).data.init + 1 = (Sensor.boot {}).data.init ∧
      (loop silentLine 1001 (Sensor.boot {})).last_init = 1001 ∧
      loop silentLine 1000 (Sensor.boot {}) = Sensor.boot {} :=
  have h := C11_loop_step_rule silentLine 1001 (Sensor.boot {})
  have h' := C11_loop_step_rule silentLine 1000 (Sensor.boot {})
  ⟨(h.2.1 (by decide) (by decide)).1, (h.2.1 (by decide) (by decide)).2,
    h'.1 (Or.inr (by decide))⟩

/-- C12: calibration fallback of `Cse7761ChipInit`.  With `words` the eight
words read from registers 0x70..0x77, `computed` the 16-bit complement of
`(0xFFFF + sum of the words) mod 2^16` and `stored` the word read from the
checksum register 0x6F afterwards: if `computed` differs from `stored` or is 0,
the coefficients for `RmsIAC`, `RmsUC` and `PowerPAC` become 52241, 42563 and
44513 and the other five are the words read; otherwise all eight are the words
read. -/
theorem C12_calibration_fallback (T : Transport) (s : Sensor)
    (hlen : s.data.coefficient.length = 8) :
    let words := (coefficientWords T 8 s.uart).1
    let computed := 0xFFFF - (0xFFFF + words.sum) % 65536
    let stored :=
      (Cse7761Read T CSE7761_REG_COEFFCHKSUM 2 (coefficientWords T 8 s.uart).2).1 % 65536
    let after := (Cse7761ChipInit T s).2.data.coefficient
    words.length = 8 ∧
      (computed ≠ stored ∨ computed = 0 →
        after.length = 8 ∧
          after.getD RmsIAC 0 = 52241 ∧ after.getD RmsUC 0 = 42563 ∧
          after.getD PowerPAC 0 = 44513 ∧
          after.getD RmsIBC 0 = words.getD RmsIBC 0 ∧
          after.getD PowerPBC 0 = words.getD PowerPBC 0 ∧
          after.getD PowerSC 0 = words.getD PowerSC 0 ∧
          after.getD EnergyAC 0 = words.getD EnergyAC 0 ∧
          after.getD EnergyBC 0 = words.getD EnergyBC 0) ∧
      (¬ (computed ≠ stored ∨ computed = 0) → after = words) := by
  intro words computed stored after
  have hw : words.length = 8 := coefficientWords_length T s.uart 8
  have hafter : after =
      if computed ≠ stored ∨ computed = 0 then
        ((words.set RmsIAC CSE7761_IREF).set RmsUC CSE7761_UREF).set PowerPAC CSE7761_PREF
      else words := by
    have h := chipInit_coefficient T s hlen
    rw [calcChecksum_eq] at h
    exact h
  refine ⟨hw, ?_, ?_⟩
  · intro hc
    rw [hafter, if_pos hc]
    refine ⟨by simp [hw], ?_, ?_, ?_, ?_, ?_, ?_, ?_, ?_⟩
    · rw [getD_set_ne _ _ _ _ (by decide), getD_set_ne _ _ _ _ (by decide),
        getD_set_self _ _ _ (by rw [hw]; decide)]
    · rw [getD_set_ne _ _ _ _ (by decide),
        getD_set_self _ _ _ (by rw [List.length_set, hw]; decide)]
    · rw [getD_set_self _ _ _ (by rw [List.length_set, List.length_set, hw]; decide)]
    all_goals
      rw [getD_set_ne _ _ _ _ (by decide), getD_set_ne _ _ _ _ (by decide),
        getD_set_ne _ _ _ _ (by decide)]
  · intro hc
    rw [hafter, if_neg hc]

theorem C12_calibration_fallback_witness :
    ((Cse7761ChipInit silentLine (Sensor.boot {})).2.data.coefficient).getD RmsIAC 0 = 52241 ∧
      ((Cse7761ChipInit silentLine (Sensor.boot {})).2.data.coefficient).getD RmsUC 0 =
        42563 :=
  have h := (C12_calibration_fallback silentLine (Sensor.boot {}) rfl).2.1
    (Or.inr (by decide))
  ⟨h.2.1, h.2.2.1⟩

/-- C13: the checksum `Cse7761ChipInit` holds after line 271 is `calcChecksum`
of the coefficient array it has just filled, whatever the line and the rest of
the state; and replacing one of eight 16-bit coefficients by a different 16-bit
value always changes `calcChecksum`. -/
theorem C13_checksum_sensitivity :
    (∀ (T : Transport) (s : Sensor), s.data.coefficient.length = 8 →
        0xFFFF - (readCoefficients T s).calc_chksum =
          calcChecksum (readCoefficients T s).coefficient) ∧
      (∀ (c : List Nat) (i w : Nat), c.length = 8 → (∀ x ∈ c, x < 65536) → i < 8 →
        w < 65536 → w ≠ c.getD i 0 → calcChecksum (c.set i w) ≠ calcChecksum c) := by
  refine ⟨?_, ?_⟩
  · intro T s hlen
    rw [readCoefficients_eq T s hlen, calcChecksum_eq]
  · intro c i w hlen hc hi hw hne
    exact calcChecksum_set_ne c i w (by omega) hc hw hne

theorem C13_checksum_sensitivity_witness :
    0xFFFF - (readCoefficients zeroWordLine (Sensor.boot {})).calc_chksum =
        calcChecksum (readCoefficients zeroWordLine (Sensor.boot {})).coefficient ∧
      calcChecksum ([52241, 0, 42563, 44513, 0, 0, 0, 0].set 2 42564) ≠
        calcChecksum [52241, 0, 42563, 44513, 0, 0, 0, 0] :=
  ⟨C13_checksum_sensitivity.1 zeroWordLine (Sensor.boot {}) rfl,
    C13_checksum_sensitivity.2 [52241, 0, 42563, 44513, 0, 0, 0, 0] 2 42564 rfl
      (by decide) (by decide) (by decide) (by decide)⟩

/-- C14: no-load threshold of `Cse7761GetData`.  With `i0` and `i1` the values
`Cse7761ReadFallback` returns for the current registers of channel A and B: a
value below 1600 gives stored current 0 and stored power 0 for that channel,
whatever the power register returns; a value in 1600..0x7FFFFF is stored
unchanged. -/
theorem C14_no_load_threshold (T : Transport) (s : Sensor)
    (hc : s.data.current_rms.length = 2) (hp : s.data.active_power.length = 2) :
    let s1 := getVoltage T s
    let i0 := Cse7761ReadFallback T CSE7761_REG_RMSIA (s1.data.current_rms.getD 0 0) 3 s1.uart
    let s2 := getChannel T CSE7761_REG_RMSIA CSE7761_REG_POWERPA 0 s1
    let i1 := Cse7761ReadFallback T CSE7761_REG_RMSIB (s2.data.current_rms.getD 1 0) 3 s2.uart
    let d := (Cse7761GetData T s).data
    (i0.1 < 1600 → d.current_rms.getD 0 0 = 0 ∧ d.active_power.getD 0 0 = 0) ∧
      (1600 ≤ i0.1 → i0.1 ≤ 0x7FFFFF → d.current_rms.getD 0 0 = i0.1) ∧
      (i1.1 < 1600 → d.current_rms.getD 1 0 = 0 ∧ d.active_power.getD 1 0 = 0) ∧
      (1600 ≤ i1.1 → i1.1 ≤ 0x7FFFFF → d.current_rms.getD 1 0 = i1.1) := by
  obtain ⟨_, h0c, h0p, h1c, h1p, _, _⟩ := getData_stored T s hc hp
  dsimp only
  refine ⟨?_, ?_, ?_, ?_⟩
  · intro h
    have hz := h0c
    rw [if_pos (Or.inr h)] at hz
    exact ⟨hz, by rw [h0p, hz]; rfl⟩
  · intro h1 h2
    rw [h0c, if_neg]
    rintro (h | h) <;> omega
  · intro h
    have hz := h1c
    rw [if_pos (Or.inr h)] at hz
    exact ⟨hz, by rw [h1p, hz]; rfl⟩
  · intro h1 h2
    rw [h1c, if_neg]
    rintro (h | h) <;> omega

theorem C14_no_load_threshold_witness :
    (Cse7761GetData silentLine (Sensor.boot {})).data.current_rms.getD 0 0 = 0 ∧
      (Cse7761GetData silentLine (Sensor.boot {})).data.active_power.getD 0 0 = 0 ∧
      (Cse7761GetData loadLine (Sensor.boot {})).data.current_rms.getD 0 0 = 1600 :=
  have h := (C14_no_load_threshold silentLine (Sensor.boot {}) rfl rfl).1 (by decide)
  have h' := (C14_no_load_threshold loadLine (Sensor.boot {}) rfl rfl).2.1
    (by decide) (by decide)
  ⟨h.1, h.2, h'.trans (by decide)⟩

/-- C15: top-bit invalidity in `Cse7761GetData`.  With `v`, `i0`, `i1` the
values `Cse7761ReadFallback` returns for the voltage register and the two
current registers: a value of 0x800000 or more is stored as 0, and the value
0x7FFFFF is stored unchanged. -/
theorem C15_top_bit_invalid (T : Transport) (s : Sensor)
    (hc : s.data.current_rms.length = 2) (hp : s.data.active_power.length = 2) :
    let v := Cse7761ReadFallback T CSE7761_REG_RMSU s.data.voltage_rms 3 s.uart
    let s1 := getVoltage T s
    let i0 := Cse7761ReadFallback T CSE7761_REG_RMSIA (s1.data.current_rms.getD 0 0) 3 s1.uart
    let s2 := getChannel T CSE7761_REG_RMSIA CSE7761_REG_POWERPA 0 s1
    let i1 := Cse7761ReadFallback T CSE7761_REG_RMSIB (s2.data.current_rms.getD 1 0) 3 s2.uart
    let d := (Cse7761GetData T s).data
    (0x800000 ≤ v.1 → d.voltage_rms = 0) ∧
      (v.1 = 0x7FFFFF → d.voltage_rms = 0x7FFFFF) ∧
      (0x800000 ≤ i0.1 → d.current_rms.getD 0 0 = 0) ∧
      (i0.1 = 0x7FFFFF → d.current_rms.getD 0 0 = 0x7FFFFF) ∧
      (0x800000 ≤ i1.1 → d.current_rms.getD 1 0 = 0) ∧
      (i1.1 = 0x7FFFFF → d.current_rms.getD 1 0 = 0x7FFFFF) := by
  obtain ⟨hv, h0c, _, h1c, _, _, _⟩ := getData_stored T s hc hp
  dsimp only
  refine ⟨?_, ?_, ?_, ?_, ?_, ?_⟩
  · intro h
    rw [hv, if_pos h]
  · intro h
    rw [hv, h]
    rfl
  · intro h
    rw [h0c, if_pos (Or.inl h)]
  · intro h
    rw [h0c, h]
    rfl
  · intro h
    rw [h1c, if_pos (Or.inl h)]
  · intro h
    rw [h1c, h]
    rfl

theorem C15_top_bit_invalid_witness :
    (Cse7761GetData loadLine (Sensor.boot {})).data.voltage_rms = 0x7FFFFF :=
  (C15_top_bit_invalid loadLine (Sensor.boot {}) rfl rfl).2.1 (by decide)

/-- C16: active power magnitude in `Cse7761GetData`.  With `p0`, `p1` the
values `Cse7761ReadFallback` returns for the two power registers (always below
2^32 when the stored powers are): for a channel whose stored current is
non-zero the stored power is the absolute value of the signed reading of that
value; 0x80000000 gives 2^31; and for every 32-bit `w` the magnitude is the
absolute value of the signed reading and is the same for `w` and for its
two's-complement negation. -/
theorem C16_active_power_magnitude (T : Transport) (s : Sensor)
    (hc : s.data.current_rms.length = 2) (hp : s.data.active_power.length = 2)
    (h32 : ∀ x ∈ s.data.active_power, x < 2 ^ 32) :
    let s1 := getVoltage T s
    let i0 := Cse7761ReadFallback T CSE7761_REG_RMSIA (s1.data.current_rms.getD 0 0) 3 s1.uart
    let p0 := Cse7761ReadFallback T CSE7761_REG_POWERPA (s1.data.active_power.getD 0 0) 4 i0.2
    let s2 := getChannel T CSE7761_REG_RMSIA CSE7761_REG_POWERPA 0 s1
    let i1 := Cse7761ReadFallback T CSE7761_REG_RMSIB (s2.data.current_rms.getD 1 0) 3 s2.uart
    let p1 := Cse7761ReadFallback T CSE7761_REG_POWERPB (s2.data.active_power.getD 1 0) 4 i1.2
    let d := (Cse7761GetData T s).data
    p0.1 < 2 ^ 32 ∧ p1.1 < 2 ^ 32 ∧
      (d.current_rms.getD 0 0 ≠ 0 → d.active_power.getD 0 0 = (signed32 p0.1).natAbs) ∧
      (d.current_rms.getD 1 0 ≠ 0 → d.active_power.getD 1 0 = (signed32 p1.1).natAbs) ∧
      powerMagnitude 0x80000000 = 2 ^ 31 ∧
      (signed32 0x80000000).natAbs = 2 ^ 31 ∧
      (∀ w, w < 2 ^ 32 →
        powerMagnitude w = (signed32 w).natAbs ∧
          powerMagnitude ((2 ^ 32 - w) % 2 ^ 32) = powerMagnitude w) := by
  obtain ⟨_, _, h0p, _, h1p, ha0, ha1⟩ := getData_stored T s hc hp
  have e : (256 : Nat) ^ 4 = 2 ^ 32 := by norm_num
  have hp0 : ∀ u, (Cse7761ReadFallback T CSE7761_REG_POWERPA
      ((getVoltage T s).data.active_power.getD 0 0) 4 u).1 < 2 ^ 32 := by
    intro u
    rw [← e]
    apply readFallback_lt
    rw [e, ha0]
    exact getD_lt_of_forall _ _ _ (by omega) h32
  have hp1 : ∀ u, (Cse7761ReadFallback T CSE7761_REG_POWERPB
      ((getChannel T CSE7761_REG_RMSIA CSE7761_REG_POWERPA 0
        (getVoltage T s)).data.active_power.getD 1 0) 4 u).1 < 2 ^ 32 := by
    intro u
    rw [← e]
    apply readFallback_lt
    rw [e, ha1]
    exact getD_lt_of_forall _ _ _ (by omega) h32
  dsimp only
  refine ⟨hp0 _, hp1 _, ?_, ?_, by decide, by decide, ?_⟩
  · intro hne
    rw [h0p, if_neg (fun h => hne h.symm)]
    exact powerMagnitude_abs _ (hp0 _)
  · intro hne
    rw [h1p, if_neg (fun h => hne h.symm)]
    exact powerMagnitude_abs _ (hp1 _)
  · intro w hw
    exact ⟨powerMagnitude_abs w hw, powerMagnitude_neg w hw⟩

theorem C16_active_power_magnitude_witness :
    (Cse7761GetData loadLine (Sensor.boot {})).data.active_power.getD 0 0 = 1 :=
  ((C16_active_power_magnitude loadLine (Sensor.boot {}) rfl rfl (by decide)).2.2.1
    (by decide)).trans (by decide)

/-- C17: with `ready != 2` an `update` call returns the state as it was: the
device data, the line (nothing sent, no receive window opened) and the publish
log are unchanged; with `ready == 2` it is `Cse7761GetData`. -/
theorem C17_update_gate (T : Transport) (s : Sensor) :
    (s.data.ready ≠ 2 →
        update T s = s ∧ (update T s).data = s.data ∧ (update T s).uart = s.uart ∧
          (update T s).published = s.published) ∧
      (s.data.ready = 2 → update T s = Cse7761GetData T s) := by
  refine ⟨?_, ?_⟩
  · intro h
    have hu : update T s = s := by
      unfold update
      rw [if_neg (fun h2 => h h2.symm)]
    rw [hu]
    exact ⟨rfl, rfl, rfl, rfl⟩
  · intro h
    unfold update
    rw [if_pos h.symm]

theorem C17_update_gate_witness :
    update silentLine (Sensor.boot {}) = Sensor.boot {} :=
  ((C17_update_gate silentLine (Sensor.boot {})).1 (by decide)).1

/-- C18: in a state with `init == 0` no `loop` call, no `update` call, no
`Cse7761GetData` acquisition and no sequence of calls changes the coefficient
array, whatever the line answers. -/
theorem C18_coefficients_read_only (T : Transport) (s : Sensor) (hinit : s.data.init = 0) :
    (∀ t, (loop T t s).data.coefficient = s.data.coefficient) ∧
      (update T s).data.coefficient = s.data.coefficient ∧
      (Cse7761GetData T s).data.coefficient = s.data.coefficient ∧
      (∀ calls : List Call, (run T calls s).data.coefficient = s.data.coefficient) := by
  refine ⟨?_, update_coefficient T s, getData_coefficient T s, ?_⟩
  · intro t
    rw [loop_closed T t s (Or.inl hinit)]
  · intro calls
    exact run_coefficient T calls s hinit

theorem C18_coefficients_read_only_witness :
    (run loadLine [Call.update, Call.loop 9000, Call.update]
        (run unitWordLine
          [Call.loop 1001, Call.loop 2002, Call.loop 3003, Call.loop 4004]
          (Sensor.boot {}))).data.coefficient =
      (run unitWordLine [Call.loop 1001, Call.loop 2002, Call.loop 3003, Call.loop 4004]
        (Sensor.boot {})).data.coefficient :=
  (C18_coefficients_read_only loadLine
    (run unitWordLine [Call.loop 1001, Call.loop 2002, Call.loop 3003, Call.loop 4004]
      (Sensor.boot {})) (by decide)).2.2.2 [Call.update, Call.loop 9000, Call.update]

/-- C19: the divisor of `Cse7761Ref(RmsIAC)` at coefficient 1.  The exact
value `(0x800000 * 100 / 1) * 10` is 8388608000, which is not below 2^32, and
`Cse7761Ref` returns it wrapped, 4093640704; the coefficient 1 is reached from
boot on `unitWordLine` with `ready == 2`.  For every coefficient from 2 on the
value is below 2^32 and returned exactly, and from 4 on it is below 2^31. -/
theorem C19_current_divisor_wraps :
    (0x800000 * 100 / 1) * 10 = 8388608000 ∧
      ¬ ((0x800000 * 100 / 1) * 10 < 2 ^ 32) ∧
      Cse7761Ref [1, 0, 1, 1, 0, 0, 0, 0] RmsIAC = some 4093640704 ∧
      (run unitWordLine [Call.loop 1001, Call.loop 2002, Call.loop 3003, Call.loop 4004]
          (Sensor.boot {})).data.ready = 2 ∧
      (run unitWordLine [Call.loop 1001, Call.loop 2002, Call.loop 3003, Call.loop 4004]
          (Sensor.boot {})).data.coefficient = [1, 0, 1, 1, 0, 0, 0, 0] ∧
      (∀ coefficient : List Nat, 2 ≤ coefficient.getD RmsIAC 0 →
        (0x800000 * 100 / coefficient.getD RmsIAC 0) * 10 < 2 ^ 32 ∧
          Cse7761Ref coefficient RmsIAC =
            some ((0x800000 * 100 / coefficient.getD RmsIAC 0) * 10)) ∧
      (∀ c : Nat, 4 ≤ c → (0x800000 * 100 / c) * 10 < 2 ^ 31) := by
  refine ⟨by decide, by decide, by decide, by decide, by decide, ?_, ?_⟩
  rotate_left
  · intro c h4
    have hdiv : 0x800000 * 100 / c ≤ 0x800000 * 100 / 4 :=
      Nat.div_le_div_left h4 (by norm_num)
    norm_num at hdiv ⊢
    omega
  intro coefficient h2
  have hdiv : 0x800000 * 100 / coefficient.getD RmsIAC 0 ≤ 0x800000 * 100 / 2 :=
    Nat.div_le_div_left h2 (by norm_num)
  have hlt : (0x800000 * 100 / coefficient.getD RmsIAC 0) * 10 < 2 ^ 32 := by
    norm_num at hdiv ⊢
    omega
  refine ⟨hlt, ?_⟩
  have hne : coefficient.getD RmsIAC 0 ≠ 0 := by omega
  unfold Cse7761Ref
  rw [if_neg (by decide), if_pos rfl, if_neg hne, Nat.mod_eq_of_lt hlt]

/-- C20: the claim fails on the code at a reachable state.  On `zeroWordLine`
(calibration block `[1, 0, 0, 0, 0, 0, 0, 0]` with the matching stored checksum
0xFFFF) four advancing ticks from boot reach `ready == 2` with the block kept
as read, so `coefficient[RmsUC]` and `coefficient[PowerPAC]` are 0 and
`Cse7761Ref(RmsUC)` and `Cse7761Ref(PowerPAC)` divide by zero; the next `update`
traps at the voltage conversion of line 478, with all sensor pointers set and
with none set.  On `answeringLine`, where every calibration read fails, the
same code installs the non-zero defaults and no divisor is zero. -/
theorem C20_zero_divisor_reachable :
    (run zeroWordLine [Call.loop 1001, Call.loop 2002, Call.loop 3003, Call.loop 4004]
        (Sensor.boot {})).data.ready = 2 ∧
      (run zeroWordLine [Call.loop 1001, Call.loop 2002, Call.loop 3003, Call.loop 4004]
        (Sensor.boot {})).data.coefficient = [1, 0, 0, 0, 0, 0, 0, 0] ∧
      (run zeroWordLine [Call.loop 1001, Call.loop 2002, Call.loop 3003, Call.loop 4004]
        (Sensor.boot {})).data.coefficient.getD RmsUC 0 = 0 ∧
      Cse7761Ref
          (run zeroWordLine [Call.loop 1001, Call.loop 2002, Call.loop 3003, Call.loop 4004]
            (Sensor.boot {})).data.coefficient RmsUC = none ∧
      Cse7761Ref
          (run zeroWordLine [Call.loop 1001, Call.loop 2002, Call.loop 3003, Call.loop 4004]
            (Sensor.boot {})).data.coefficient PowerPAC = none ∧
      (run zeroWordLine
          [Call.loop 1001, Call.loop 2002, Call.loop 3003, Call.loop 4004, Call.update]
          (Sensor.boot {})).published =
        [{ sink := Sink.voltage, raw := 0, ref := none }] ∧
      (run zeroWordLine
          [Call.loop 1001, Call.loop 2002, Call.loop 3003, Call.loop 4004, Call.update]
          (Sensor.boot
            { voltage_sensor_ := false, power_sensor_1_ := false,
              current_sensor_1_ := false, power_sensor_2_ := false,
              current_sensor_2_ := false })).published =
        [{ sink := Sink.voltage, raw := 0, ref := none }] ∧
      (run answeringLine [Call.loop 1001, Call.loop 2002, Call.loop 3003, Call.loop 4004]
        (Sensor.boot {})).data.ready = 2 ∧
      (run answeringLine [Call.loop 1001, Call.loop 2002, Call.loop 3003, Call.loop 4004]
        (Sensor.boot {})).data.coefficient =
          [CSE7761_IREF, 0, CSE7761_UREF, CSE7761_PREF, 0, 0, 0, 0] ∧
      (run answeringLine
          [Call.loop 1001, Call.loop 2002, Call.loop 3003, Call.loop 4004, Call.update]
          (Sensor.boot {})).published =
        [{ sink := Sink.voltage, raw := 0, ref := some 9854 },
          { sink := Sink.power1, raw := 0, ref := some 48243 },
          { sink := Sink.current1, raw := 0, ref := some 160570 },
          { sink := Sink.power2, raw := 0, ref := some 48243 },
          { sink := Sink.current2, raw := 0, ref := some 160570 }] := by
  decide

/-- C21: receive bounds of `Cse7761ReadOnce`, for every expected size and every
sequence of poll results (hence at every stage of the receive loop): the count
of stored bytes is at most `min(size + 1, 7)` and the buffer keeps its 8
entries, so the index of every store and every index up to the checksum
position `rcvd - 1` is in range; for `size <= 4` the attempt never ends in the
"Rx overflow" return; and every value returned with success is below
`2^(8*size)`. -/
theorem C21_receive_bounds (reg size : Nat) (polls : List Int) :
    (receive size polls).rcvd ≤ min (size + 1) 7 ∧
      (receive size polls).buffer.length = 8 ∧
      (∀ value : Int,
        (rxPoll value (receive size polls)).rcvd = (receive size polls).rcvd + 1 →
          (receive size polls).rcvd < (receive size polls).buffer.length) ∧
      (∀ i, i ≤ (receive size polls).rcvd - 1 → i < (receive size polls).buffer.length) ∧
      (size ≤ 4 → readOnceOutcome reg size polls ≠ Except.error RxError.rxOverflow) ∧
      (∀ v, readOnceOutcome reg size polls = Except.ok v → v < 2 ^ (8 * size)) ∧
      (∀ (T : Transport) (value : Nat) (u : Uart),
        (Cse7761ReadOnce T reg size value u).1 = true →
          (Cse7761ReadOnce T reg size value u).2.1 < 2 ^ (8 * size)) := by
  obtain ⟨h8, _, hs, h7⟩ := receive_inv size polls
  refine ⟨by omega, h8, ?_, ?_, readOnceOutcome_no_overflow reg size polls, ?_, ?_⟩
  · intro value hv
    unfold rxPoll at hv
    split at hv
    · rename_i hc
      omega
    · omega
  · intro i hi
    omega
  · intro v hv
    rw [← pow_256]
    exact readOnceOutcome_lt reg size v polls hv
  · intro T value u hok
    rw [← pow_256]
    rw [readOnce_eq] at hok ⊢
    cases hout : readOnceOutcome reg size (T u.polled reg) with
    | error e => rw [hout] at hok; cases hok
    | ok v => exact readOnceOutcome_lt reg size v _ hout

/-- C22: in every state reached from boot by `loop` and `update` calls, whatever
the line answers: `voltage_rms < 0x800000`, and for each channel `current_rms`
is 0 or lies in 1600..0x7FFFFF, `active_power` is at most 0x80000000, and
`active_power` is 0 whenever `current_rms` is 0. -/
theorem C22_measurement_invariant (T : Transport) (sinks : Sinks) (calls : List Call) :
    (run T calls (Sensor.boot sinks)).data.voltage_rms < 0x800000 ∧
      (run T calls (Sensor.boot sinks)).data.current_rms.length = 2 ∧
      (run T calls (Sensor.boot sinks)).data.active_power.length = 2 ∧
      (∀ i, i < 2 →
        ((run T calls (Sensor.boot sinks)).data.current_rms.getD i 0 = 0 ∨
            (1600 ≤ (run T calls (Sensor.boot sinks)).data.current_rms.getD i 0 ∧
              (run T calls (Sensor.boot sinks)).data.current_rms.getD i 0 ≤ 0x7FFFFF)) ∧
          (run T calls (Sensor.boot sinks)).data.active_power.getD i 0 ≤ 0x80000000 ∧
          ((run T calls (Sensor.boot sinks)).data.current_rms.getD i 0 = 0 →
            (run T calls (Sensor.boot sinks)).data.active_power.getD i 0 = 0)) := by
  obtain ⟨hc, hp, hv, c0, c1, p0, p1, z0, z1⟩ :=
    run_measurementInv T calls (Sensor.boot sinks) (boot_measurementInv sinks)
  refine ⟨hv, hc, hp, ?_⟩
  intro i hi
  have hcases : i = 0 ∨ i = 1 := by omega
  rcases hcases with h | h
  · subst h; exact ⟨c0, p0, z0⟩
  · subst h; exact ⟨c1, p1, z1⟩

/-- C23: boot has `init == 4` and `ready == 0`, and in every state reached from
boot by `loop` and `update` calls, whatever the line answers and whatever the
clock reads: `init <= 4`, `ready` is 0, 1 or 2, `ready == 1` implies
`init == 1`, `ready == 2` implies `init == 0`; and once `init` is 0, `ready` is
0 or 2 and no later sequence of calls changes `ready` or `init`. -/
theorem C23_init_ready_invariant (T : Transport) (sinks : Sinks) (calls : List Call) :
    (Sensor.boot sinks).data.init = 4 ∧ (Sensor.boot sinks).data.ready = 0 ∧
      (run T calls (Sensor.boot sinks)).data.init ≤ 4 ∧
      ((run T calls (Sensor.boot sinks)).data.ready = 0 ∨
        (run T calls (Sensor.boot sinks)).data.ready = 1 ∨
        (run T calls (Sensor.boot sinks)).data.ready = 2) ∧
      ((run T calls (Sensor.boot sinks)).data.ready = 1 →
        (run T calls (Sensor.boot sinks)).data.init = 1) ∧
      ((run T calls (Sensor.boot sinks)).data.ready = 2 →
        (run T calls (Sensor.boot sinks)).data.init = 0) ∧
      ((run T calls (Sensor.boot sinks)).data.init = 0 →
        ((run T calls (Sensor.boot sinks)).data.ready = 0 ∨
          (run T calls (Sensor.boot sinks)).data.ready = 2) ∧
        ∀ later : List Call,
          (run T later (run T calls (Sensor.boot sinks))).data.ready =
              (run T calls (Sensor.boot sinks)).data.ready ∧
            (run T later (run T calls (Sensor.boot sinks))).data.init = 0) := by
  obtain ⟨h4, hr⟩ := run_inv T calls (Sensor.boot sinks) (boot_inv sinks)
  refine ⟨rfl, rfl, h4, ?_, ?_, ?_, ?_⟩
  · rcases hr with h | h | h
    · exact Or.inl h
    · exact Or.inr (Or.inl h.1)
    · exact Or.inr (Or.inr h.1)
  · intro h1
    rcases hr with h | h | h
    · omega
    · exact h.2
    · omega
  · intro h2
    rcases hr with h | h | h
    · omega
    · omega
    · exact h.2
  · intro h0
    refine ⟨?_, ?_⟩
    · rcases hr with h | h | h
      · exact Or.inl h
      · omega
      · exact Or.inr h.1
    · intro later
      exact ⟨run_ready T later _ h0, run_init_zero T later _ h0⟩

/-- C24: the checksum computed by `Cse7761ChipInit` is the negation modulo 2^16
of the sum of the coefficient words: `(calcChecksum words + sum) mod 2^16 = 0`,
where the loop stores exactly the eight words read and its complemented
accumulator is `calcChecksum` of them; and when all eight words read are 0 the
computed checksum is 0 and the coefficients become the three factory defaults
with the other five words 0, whatever the stored checksum is. -/
theorem C24_checksum_negation :
    (∀ words : List Nat, (calcChecksum words + words.sum) % 65536 = 0) ∧
      (∀ (T : Transport) (s : Sensor), s.data.coefficient.length = 8 →
        (readCoefficients T s).coefficient = (coefficientWords T 8 s.uart).1 ∧
          0xFFFF - (readCoefficients T s).calc_chksum =
            calcChecksum (coefficientWords T 8 s.uart).1) ∧
      (∀ (T : Transport) (s : Sensor), s.data.coefficient.length = 8 →
        (∀ w ∈ (coefficientWords T 8 s.uart).1, w = 0) →
        calcChecksum (coefficientWords T 8 s.uart).1 = 0 ∧
          (Cse7761ChipInit T s).2.data.coefficient =
            [CSE7761_IREF, 0, CSE7761_UREF, CSE7761_PREF, 0, 0, 0, 0]) := by
  refine ⟨calcChecksum_add_sum, ?_, ?_⟩
  · intro T s hlen
    rw [readCoefficients_eq T s hlen, calcChecksum_eq]
    exact ⟨rfl, rfl⟩
  · intro T s hlen hz
    have hsum := sum_of_all_zero _ hz
    have hcalc : calcChecksum (coefficientWords T 8 s.uart).1 = 0 := by
      rw [calcChecksum_eq, hsum]
    refine ⟨hcalc, ?_⟩
    have hw : (coefficientWords T 8 s.uart).1.length = 8 := coefficientWords_length T s.uart 8
    have hwords : (coefficientWords T 8 s.uart).1 = [0, 0, 0, 0, 0, 0, 0, 0] := by
      apply List.ext_getElem
      · rw [hw]; rfl
      · intro i h1 h2
        rw [hz _ (List.getElem_mem _)]
        simp only [List.length_cons, List.length_nil] at h2
        have : ([0, 0, 0, 0, 0, 0, 0, 0] : List Nat).getD i 0 = 0 :=
          getD_of_all_zero _ i (by decide)
        rw [List.getD_eq_getElem _ _ (by simpa using h2)] at this
        exact this.symm
    rw [chipInit_coefficient T s hlen, if_pos (Or.inr hcalc), hwords]
    rfl

theorem C24_checksum_negation_witness :
    (calcChecksum [52241, 0, 42563, 44513, 0, 0, 0, 0] +
          [52241, 0, 42563, 44513, 0, 0, 0, 0].sum) % 65536 = 0 ∧
      (Cse7761ChipInit silentLine (Sensor.boot {})).2.data.coefficient =
        [CSE7761_IREF, 0, CSE7761_UREF, CSE7761_PREF, 0, 0, 0, 0] :=
  ⟨C24_checksum_negation.1 [52241, 0, 42563, 44513, 0, 0, 0, 0],
    (C24_checksum_negation.2.2 silentLine (Sensor.boot {}) rfl (by decide)).2⟩

end CSE7761
